import Mathlib

/-!
# Verification of the customtags argument-parsing and expression library

A shallow embedding of the `customtags` template-tag library: the token
lexer (`lexer.py`), the token stream, the expression parser
(`expr_parser.py`), the expression AST evaluator (`nodes.py`), the value
wrappers (`values.py`) and the argument-descriptor engine
(`arguments.py`).  Every definition is translated from the Python source;
fuel parameters make the Python loops and recursions total, and Python
exceptions become an explicit `Err` sum that distinguishes the library's
`BaseError` hierarchy (caught by speculative combinators) from plain
`TemplateSyntaxError`s, the `VariableDoesNotExist` soft-fail, and all
other Python exceptions (never caught by the library).
-/

namespace Customtags

/-- Python runtime values that can appear as a resolved result or as a
token payload.  `float` keeps the literal spelling because no claim
touches float arithmetic; `repc` is a resolved `RepContainer`
(its resolved `args` list and `kwargs` dict); `nullCls` is the `NULL`
marker class from `utils.py`. -/
inductive Value where
  | none
  | bool (b : Bool)
  | int (n : Int)
  | float (raw : String)
  | str (s : String)
  | tup (items : List Value)
  | list (items : List Value)
  | dict (entries : List (Value × Value))
  | repc (args kwargs : Value)
  | nullCls
deriving Repr

/-- A token's `value` field: the lexer stores strings for names, strings
and operators, Python ints for integer literals and floats for float
literals (kept as their spelling here). -/
inductive TokVal where
  | str (s : String)
  | int (n : Int)
  | float (raw : String)
deriving DecidableEq, Repr

/-- `lexer.Token`: the line number is always 0 in this lexer
(`Token.__new__` hard-codes it), so only type and value are kept. -/
structure Token where
  type : String
  value : TokVal
deriving DecidableEq, Repr

/-- The `BaseError` taxonomy of `exceptions.py` (each constructor is one
exception class; payloads keep the fields that the constructors store,
except the `tagname` attached by the structuring pass, which is outside
this embedding). -/
inductive BaseErr where
  | baseMsg (msg : String)
  | tagNameError (badName name : String)
  | unexpectedElement (type tagName : String)
  | argumentRequired (argtype : String) (name : Option String)
  | invalidArgument (excluded : String)
  | invalidFlag (argname : Option String) (actual : String) (allowed : List String)
  | breakpointExpected (breakpoints : List String) (got : String)
  | tooManyArguments (extra : List String)
  | tooFewArguments (argument : String)
  | keywordInUse (name : String)
  | formatError (argname format : String)
  | unexpectedToken (expected got : String)
deriving DecidableEq, Repr

/-- Exception outcomes.  `base` is the library's `BaseError` hierarchy
(a subclass of `TemplateSyntaxError`, and the only thing the speculative
combinators catch); `syntaxErr` is a plain `TemplateSyntaxError`;
`varDoesNotExist` is django's `VariableDoesNotExist` soft-fail;
`other` is any other Python exception (`NameError`, `TypeError`, ...),
with `fuel` marking exhaustion of the termination fuel (no Python
counterpart: it only occurs below the fuel bounds used here). -/
inductive Err where
  | base (e : BaseErr)
  | syntaxErr (msg : String)
  | varDoesNotExist
  | other (msg : String)
  | fuel
deriving DecidableEq, Repr

/-! ## Token stream (`lexer.py`, `TokenStream`) -/

/-- `TokenStream.EOF_TOKEN_INSTANCE = Token(TOKEN_EOF, '')`. -/
def eofToken : Token := ⟨"eof", .str ""⟩

/-- `lexer.TokenStream`: the deque of remaining tokens plus the `closed`
flag. -/
structure TokenStream where
  pushed : List Token
  closed : Bool
deriving DecidableEq, Repr

/-- `__bool__` / `eos`: true iff no tokens remain. -/
def TokenStream.eos (ts : TokenStream) : Bool := ts.pushed.isEmpty

/-- `size`: the number of remaining tokens. -/
def TokenStream.size (ts : TokenStream) : Nat := ts.pushed.length

/-- `current`: the head of the deque, or the EOF sentinel once
exhausted. -/
def TokenStream.current (ts : TokenStream) : Token :=
  ts.pushed.head?.getD eofToken

/-- `__next__`: return the old current token; pop it, or close the
stream when it was already exhausted. -/
def TokenStream.next (ts : TokenStream) : Token × TokenStream :=
  (ts.current,
    match ts.pushed with
    | [] => { ts with closed := true }
    | _ :: rest => { ts with pushed := rest })

/-- `push`: prepend a token. -/
def TokenStream.push (ts : TokenStream) (t : Token) : TokenStream :=
  { ts with pushed := t :: ts.pushed }

/-- `look()`: advance, read `current`, push the old token back; the net
effect on a value-level copy is peeking one past `current`. -/
def TokenStream.look (ts : TokenStream) : Token :=
  (ts.next.2).current

/-- `expr.split(':', 1)`: split at the first colon, when there is
one. -/
def splitColon (s : String) : Option (String × String) :=
  go s.toList []
where
  go : List Char → List Char → Option (String × String)
    | [], _ => Option.none
    | ':' :: rest, acc => some (String.mk acc.reverse, String.mk rest)
    | c :: rest, acc => go rest (c :: acc)

/-- `Token.test`: either a bare token type or `"type:value"`. -/
def Token.test (tok : Token) (expr : String) : Bool :=
  if tok.type == expr then true
  else match splitColon expr with
    | some (t, v) => tok.type == t && tok.value == .str v
    | Option.none => false

def Token.testAny (tok : Token) (exprs : List String) : Bool :=
  exprs.any tok.test

/-- `tokens.reverse_operators` restricted to lookup by token type. -/
def reverseOperator (type : String) : Option String :=
  match type with
  | "add" => some "+" | "sub" => some "-" | "div" => some "/"
  | "floordiv" => some "//" | "mul" => some "*" | "mod" => some "%"
  | "pow" => some "**" | "tilde" => some "~" | "lbracket" => some "["
  | "rbracket" => some "]" | "lparen" => some "(" | "rparen" => some ")"
  | "lbrace" => some "\x7b" | "rbrace" => some "\x7d" | "eq" => some "=="
  | "ne" => some "!=" | "gt" => some ">" | "gteq" => some ">="
  | "lt" => some "<" | "lteq" => some "<=" | "assign" => some "="
  | "dot" => some "." | "colon" => some ":" | "pipe" => some "|"
  | "comma" => some "," | "semicolon" => some ";"
  | _ => Option.none

/-- `tokens._describe_token_type`. -/
def describeTokenType (type : String) : String :=
  match reverseOperator type with
  | some op => op
  | Option.none =>
    match type with
    | "comment_begin" => "begin of comment"
    | "comment_end" => "end of comment"
    | "comment" => "comment"
    | "linecomment" => "comment"
    | "block_begin" => "begin of statement block"
    | "block_end" => "end of statement block"
    | "variable_begin" => "begin of print statement"
    | "variable_end" => "end of print statement"
    | "linestatement_begin" => "begin of line statement"
    | "linestatement_end" => "end of line statement"
    | "data" => "template data / text"
    | "eof" => "end of template"
    | t => t

/-- `tokens.describe_token`. -/
def describeToken (tok : Token) : String :=
  if tok.type == "name" then
    match tok.value with
    | .str s => s
    | .int n => toString n
    | .float r => r
  else describeTokenType tok.type

/-- `tokens.describe_token_expr`. -/
def describeTokenExpr (expr : String) : String :=
  match splitColon expr with
  | some (t, v) => if t == "name" then v else describeTokenType t
  | Option.none => describeTokenType expr

/-- `TokenStream.expect`: consume the current token when it matches the
expression, else raise `UnexpectedTokenError` (a `BaseError`). -/
def TokenStream.expect (ts : TokenStream) (expr : String) :
    Except Err (Token × TokenStream) :=
  if ts.current.test expr then .ok (ts.current, ts.next.2)
  else .error (.base (.unexpectedToken (describeTokenExpr expr)
    (describeToken ts.current)))

/-- `next_if`: conditionally consume. -/
def TokenStream.nextIf (ts : TokenStream) (expr : String) :
    Option Token × TokenStream :=
  if ts.current.test expr then
    let (t, ts') := ts.next
    (some t, ts')
  else (Option.none, ts)

/-- `skip_if`. -/
def TokenStream.skipIf (ts : TokenStream) (expr : String) :
    Bool × TokenStream :=
  let (t, ts') := ts.nextIf expr
  (t.isSome, ts')

/-- `skip(n)`. -/
def TokenStream.skip (ts : TokenStream) : Nat → TokenStream
  | 0 => ts
  | n + 1 => (ts.next.2).skip n

/-! ## Lexer (`lexer.py`, `Lexer.tokeniter` and `Lexer.wrap`)

The rule table contains exactly the six tag rules of `Lexer.__init__`:
whitespace, float, integer, name, string, operator — tried in that
order, with the operator rule resolved by longest match and guarded by
the brace/bracket/paren balancing stack. -/

/-- Python `\s` for the `re.U` whitespace rule, over the ASCII range the
claims exercise. -/
def isSpaceCh (c : Char) : Bool :=
  c == ' ' || c == '\t' || c == '\n' || c == '\r' ||
  c == '\x0b' || c == '\x0c'

def isDigitCh (c : Char) : Bool := '0' ≤ c && c ≤ '9'

def isAlphaCh (c : Char) : Bool :=
  ('a' ≤ c && c ≤ 'z') || ('A' ≤ c && c ≤ 'Z')

/-- A regex word character (`\w`), for the `\b` boundaries of
`name_re` (the ASCII branch of `tokens.py` is the live one: the
`compile('föö')` probe fails under Python 2). -/
def isWordCh (c : Char) : Bool := isAlphaCh c || isDigitCh c || c == '_'

/-- `float_re = (?<!\.)\d+\.\d+` at the head of `cs`. -/
def floatMatch (cs : List Char) : Option (List Char × List Char) :=
  let d1 := cs.takeWhile isDigitCh
  if d1.isEmpty then Option.none
  else match cs.drop d1.length with
    | '.' :: rest =>
      let d2 := rest.takeWhile isDigitCh
      if d2.isEmpty then Option.none
      else some (d1 ++ '.' :: d2, rest.drop d2.length)
    | _ => Option.none

/-- `string_re`: scan for the closing quote, a backslash escaping the
next character; `none` when the string is unterminated (the regex then
simply fails to match). Returns the characters between the quotes and
the remainder after the closing quote. -/
def stringMatch (q : Char) : List Char → Option (List Char × List Char)
  | [] => Option.none
  | '\\' :: c :: rest =>
    match stringMatch q rest with
    | some (inner, r) => some ('\\' :: c :: inner, r)
    | Option.none => Option.none
  | c :: rest =>
    if c == q then some ([], rest)
    else match stringMatch q rest with
      | some (inner, r) => some (c :: inner, r)
      | Option.none => Option.none

/-- `tokens.operators` longest-match at the head of `cs`: two-character
operators first (`operator_re` sorts by decreasing length). -/
def operatorMatch (cs : List Char) : Option (String × List Char) :=
  match cs with
  | a :: b :: rest =>
    let two := String.mk [a, b]
    if two == "//" || two == "**" || two == "==" || two == "!=" ||
       two == ">=" || two == "<=" then some (two, rest)
    else oneChar a (b :: rest)
  | [a] => oneChar a []
  | [] => Option.none
where
  oneChar (a : Char) (rest : List Char) : Option (String × List Char) :=
    if a == '+' || a == '-' || a == '/' || a == '*' || a == '%' ||
       a == '~' || a == '[' || a == ']' || a == '(' || a == ')' ||
       a == '\x7b' || a == '\x7d' || a == '=' || a == '.' || a == ':' ||
       a == '|' || a == ',' || a == ';' || a == '>' || a == '<'
    then some (String.mk [a], rest) else Option.none

/-- `tokens.OPERATORS`: operator spelling to token type. -/
def operatorType (data : String) : String :=
  match data with
  | "+" => "add" | "-" => "sub" | "/" => "div" | "//" => "floordiv"
  | "*" => "mul" | "%" => "mod" | "**" => "pow" | "~" => "tilde"
  | "[" => "lbracket" | "]" => "rbracket" | "(" => "lparen"
  | ")" => "rparen" | "\x7b" => "lbrace" | "\x7d" => "rbrace" | "==" => "eq"
  | "!=" => "ne" | ">" => "gt" | ">=" => "gteq" | "<" => "lt"
  | "<=" => "lteq" | "=" => "assign" | "." => "dot" | ":" => "colon"
  | "|" => "pipe" | "," => "comma" | ";" => "semicolon"
  | _ => "operator"

/-- A raw `(token, data)` pair as yielded by `tokeniter` before
`wrap`. -/
abbrev RawTok := String × String

/-- The body of `Lexer.tokeniter`: one iteration per rule match,
tracking the previously consumed character (for the `\b` and `(?<!\.)`
zero-width assertions) and the balancing stack.  When the input is
exhausted the loop returns `acc` — the source performs *no* check that
the balancing stack is empty at end of input. -/
def tokeniterGo : Nat → Option Char → List Char → List Char →
    List RawTok → Except Err (List RawTok)
  | 0, _, _, _, _ => .error .fuel
  | _ + 1, _, [], _, acc => .ok acc.reverse
  | f + 1, prev, c :: cs, stack, acc =>
    if isSpaceCh c then
      let data := (c :: cs).takeWhile isSpaceCh
      tokeniterGo f data.getLast? ((c :: cs).drop data.length) stack
        (("whitespace", String.mk data) :: acc)
    else
      match if prev != some '.' then floatMatch (c :: cs) else Option.none with
      | some (data, rest) =>
        tokeniterGo f data.getLast? rest stack
          (("float", String.mk data) :: acc)
      | Option.none =>
        if isDigitCh c then
          let data := (c :: cs).takeWhile isDigitCh
          tokeniterGo f data.getLast? ((c :: cs).drop data.length) stack
            (("integer", String.mk data) :: acc)
        else if (isAlphaCh c || c == '_') &&
                (match prev with
                 | some p => !isWordCh p
                 | Option.none => true) then
          let data := (c :: cs).takeWhile (fun x => isWordCh x)
          tokeniterGo f data.getLast? ((c :: cs).drop data.length) stack
            (("name", String.mk data) :: acc)
        else if c == '\'' || c == '"' then
          match stringMatch c cs with
          | some (inner, rest) =>
            let data := c :: (inner ++ [c])
            tokeniterGo f data.getLast? rest stack
              (("string", String.mk data) :: acc)
          | Option.none =>
            .error (.syntaxErr ("unexpected char " ++ String.mk [c]))
        else
          match operatorMatch (c :: cs) with
          | some (data, rest) =>
            if data == "\x7b" then
              tokeniterGo f (some '\x7b') rest ('\x7d' :: stack)
                (("operator", data) :: acc)
            else if data == "(" then
              tokeniterGo f (some '(') rest (')' :: stack)
                (("operator", data) :: acc)
            else if data == "[" then
              tokeniterGo f (some '[') rest (']' :: stack)
                (("operator", data) :: acc)
            else if data == "\x7d" || data == ")" || data == "]" then
              match stack with
              | [] => .error (.syntaxErr ("unexpected " ++ data))
              | expected :: stack' =>
                if String.mk [expected] == data then
                  tokeniterGo f data.toList.getLast? rest stack'
                    (("operator", data) :: acc)
                else
                  .error (.syntaxErr ("unexpected " ++ data ++
                    ", expected " ++ String.mk [expected]))
            else
              tokeniterGo f data.toList.getLast? rest stack
                (("operator", data) :: acc)
          | Option.none =>
            .error (.syntaxErr ("unexpected char " ++ String.mk [c]))

/-- One step of `unicode-escape` decoding for the characters the
argument strings use; unknown escapes keep the backslash, exactly as
the codec does. -/
def unescapeGo : Nat → List Char → Except Err (List Char)
  | 0, _ => .error .fuel
  | _ + 1, [] => .ok []
  | f + 1, '\\' :: c :: rest =>
    if c == 'n' then do pure ('\n' :: (← unescapeGo f rest))
    else if c == 't' then do pure ('\t' :: (← unescapeGo f rest))
    else if c == 'r' then do pure ('\r' :: (← unescapeGo f rest))
    else if c == '\\' then do pure ('\\' :: (← unescapeGo f rest))
    else if c == '\'' then do pure ('\'' :: (← unescapeGo f rest))
    else if c == '"' then do pure ('"' :: (← unescapeGo f rest))
    else do pure ('\\' :: c :: (← unescapeGo f rest))
  | f + 1, c :: rest => do pure (c :: (← unescapeGo f rest))

def pyParseNatDigits (cs : List Char) : Nat :=
  cs.foldl (fun acc c => acc * 10 + (c.toNat - '0'.toNat)) 0

/-- `Lexer.wrap`: drop whitespace, convert integer and string payloads,
and replace the generic `operator` type with the per-operator token
type. -/
def wrapTok : RawTok → Except Err (Option Token)
  | ("whitespace", _) => .ok Option.none
  | ("integer", data) => .ok (some ⟨"integer", .int (pyParseNatDigits data.toList)⟩)
  | ("float", data) => .ok (some ⟨"float", .float data⟩)
  | ("name", data) => .ok (some ⟨"name", .str data⟩)
  | ("string", data) => do
    let inner := (data.toList.drop 1).dropLast
    let unescaped ← unescapeGo (inner.length + 1) inner
    .ok (some ⟨"string", .str (String.mk unescaped)⟩)
  | ("operator", data) => .ok (some ⟨operatorType data, .str data⟩)
  | (t, data) => .ok (some ⟨t, .str data⟩)

def wrapAll : List RawTok → Except Err (List Token)
  | [] => .ok []
  | r :: rest => do
    let t? ← wrapTok r
    let ts ← wrapAll rest
    match t? with
    | some t => .ok (t :: ts)
    | Option.none => .ok ts

/-- The newline normalisation of `tokeniter`'s preamble
(`splitlines` + `keep_trailing_newline` + `'\n'.join`): CRLF and CR
become LF. -/
def normalizeNewlines : List Char → List Char
  | [] => []
  | '\r' :: '\n' :: rest => '\n' :: normalizeNewlines rest
  | '\r' :: rest => '\n' :: normalizeNewlines rest
  | c :: rest => c :: normalizeNewlines rest

/-- `Lexer.tokenize`: run `tokeniter`, `wrap` every token, and build a
`TokenStream` (whose constructor consumes the whole generator, so any
lexing error surfaces here). -/
def tokenize (source : String) : Except Err TokenStream := do
  let norm := normalizeNewlines source.toList
  let raw ← tokeniterGo (norm.length + 1) Option.none norm [] []
  let toks ← wrapAll raw
  .ok ⟨toks, false⟩

/-! ## Python value semantics used by `nodes.py`

`operator.mul` and friends applied to the data values above.  Floating
point cannot be embedded exactly, so every operation that would produce
or inspect a float yields an explicit `Err.other` marker; no claim
touches floats.  Python `bool` is an `int` subtype, so `numAsInt`
coerces it wherever arithmetic or comparison accepts numbers. -/

def numAsInt : Value → Option Int
  | .int n => some n
  | .bool b => some (if b then 1 else 0)
  | _ => Option.none

def floatNotModelled : Err := .other "float semantics not modelled"

/-- Python truthiness. -/
def pyBool : Value → Except Err Bool
  | .none => .ok false
  | .bool b => .ok b
  | .int n => .ok (n ≠ 0)
  | .float raw => .ok (!raw.toList.all (fun c => c == '0' || c == '.'))
  | .str s => .ok (s ≠ "")
  | .tup l => .ok (!l.isEmpty)
  | .list l => .ok (!l.isEmpty)
  | .dict e => .ok (!e.isEmpty)
  | .repc _ _ => .ok true
  | .nullCls => .ok true

mutual

/-- Python `==` over the embedded values (`bool` coerces to `int`; a
`RepContainer` compares by identity, which is outside the model). -/
def pyEq : Nat → Value → Value → Except Err Bool
  | 0, _, _ => .error .fuel
  | f + 1, a, b =>
    match numAsInt a, numAsInt b with
    | some x, some y => .ok (x == y)
    | _, _ =>
      match a, b with
      | .float _, _ => .error floatNotModelled
      | _, .float _ => .error floatNotModelled
      | .str s, .str t => .ok (s == t)
      | .none, .none => .ok true
      | .nullCls, .nullCls => .ok true
      | .tup xs, .tup ys => pyEqList f xs ys
      | .list xs, .list ys => pyEqList f xs ys
      | .dict xs, .dict ys => pyEqDict f xs ys
      | .repc _ _, .repc _ _ => .error (.other "object identity not modelled")
      | _, _ => .ok false
termination_by structural f _ _ => f

def pyEqList : Nat → List Value → List Value → Except Err Bool
  | 0, _, _ => .error .fuel
  | _ + 1, [], [] => .ok true
  | f + 1, x :: xs, y :: ys => do
    if (← pyEq f x y) then pyEqList f xs ys else pure false
  | _ + 1, _, _ => .ok false
termination_by structural f _ _ => f

def pyEqDict : Nat → List (Value × Value) → List (Value × Value) →
    Except Err Bool
  | 0, _, _ => .error .fuel
  | f + 1, xs, ys =>
    if xs.length ≠ ys.length then .ok false else pyEqDictGo f xs ys
termination_by structural f _ _ => f

def pyEqDictGo : Nat → List (Value × Value) → List (Value × Value) →
    Except Err Bool
  | 0, _, _ => .error .fuel
  | _ + 1, [], _ => .ok true
  | f + 1, (k, v) :: rest, ys => do
    match (← dictFind f ys k) with
    | some v' => do
      if (← pyEq f v v') then pyEqDictGo f rest ys else pure false
    | Option.none => pure false
termination_by structural f _ _ => f

/-- Python dict lookup on an association list: find the first key equal
(by `==`) to the probe. -/
def dictFind : Nat → List (Value × Value) → Value →
    Except Err (Option Value)
  | 0, _, _ => .error .fuel
  | _ + 1, [], _ => .ok Option.none
  | f + 1, (k', v') :: rest, k => do
    if (← pyEq f k k') then pure (some v') else dictFind f rest k
termination_by structural f _ _ => f

end

/-- Python dict assignment `d[k] = v`: replace the value of the first
equal key, else append the new pair. -/
def dictSet : Nat → List (Value × Value) → Value → Value →
    Except Err (List (Value × Value))
  | 0, _, _, _ => .error .fuel
  | _ + 1, [], k, v => .ok [(k, v)]
  | f + 1, (k', v') :: rest, k, v =>
    match pyEq f k k' with
    | .error err => .error err
    | .ok true => .ok ((k', v) :: rest)
    | .ok false =>
      match dictSet f rest k v with
      | .error err => .error err
      | .ok rest' => .ok ((k', v') :: rest')
termination_by structural f _ _ _ => f

/-- Python 2 cross-type ordering rank: `None` below everything, then
numbers, then the remaining built-in types by type name
(`dict` < `list` < `str` < `tuple`). -/
def crossRank : Value → Option Nat
  | .none => some 0
  | .bool _ => some 1
  | .int _ => some 1
  | .dict _ => some 2
  | .list _ => some 3
  | .str _ => some 4
  | .tup _ => some 5
  | _ => Option.none

mutual

/-- Python 2 `<`. -/
def pyLt : Nat → Value → Value → Except Err Bool
  | 0, _, _ => .error .fuel
  | f + 1, a, b =>
    match numAsInt a, numAsInt b with
    | some x, some y => .ok (x < y)
    | _, _ =>
      match a, b with
      | .str s, .str t => .ok (decide (s < t))
      | .list xs, .list ys => pyLtList f xs ys
      | .tup xs, .tup ys => pyLtList f xs ys
      | .dict _, .dict _ => .error (.other "py2 dict ordering not modelled")
      | _, _ =>
        match crossRank a, crossRank b with
        | some ra, some rb => .ok (ra < rb)
        | _, _ => .error (.other "ordering not modelled")
termination_by structural f _ _ => f

def pyLtList : Nat → List Value → List Value → Except Err Bool
  | 0, _, _ => .error .fuel
  | _ + 1, [], [] => .ok false
  | _ + 1, [], _ :: _ => .ok true
  | _ + 1, _ :: _, [] => .ok false
  | f + 1, x :: xs, y :: ys => do
    if (← pyEq f x y) then pyLtList f xs ys else pyLt f x y
termination_by structural f _ _ => f

end

/-- Python `a in b`. -/
def pyIn : Nat → Value → Value → Except Err Bool
  | 0, _, _ => .error .fuel
  | f + 1, a, b =>
    match b with
    | .str t =>
      match a with
      | .str s => .ok (decide (s.toList <:+: t.toList))
      | _ => .error (.other "TypeError: in <string> requires string")
    | .list xs => pyInList f a xs
    | .tup xs => pyInList f a xs
    | .dict entries => pyInList f a (entries.map Prod.fst)
    | _ => .error (.other "TypeError: argument not iterable")
where
  pyInList : Nat → Value → List Value → Except Err Bool
    | 0, _, _ => .error .fuel
    | _ + 1, _, [] => .ok false
    | f + 1, a, x :: xs => do
      if (← pyEq f a x) then pure true else pyInList f a xs
  termination_by structural f _ _ => f

/-- `_cmpop_to_func` application; results are the Python booleans the
operators return (the membership and rich comparisons here always yield
`bool`). -/
def pyCmpOp : Nat → String → Value → Value → Except Err Value
  | 0, _, _, _ => .error .fuel
  | f + 1, op, a, b =>
    match op with
    | "eq" => do pure (.bool (← pyEq f a b))
    | "ne" => do pure (.bool (!(← pyEq f a b)))
    | "lt" => do pure (.bool (← pyLt f a b))
    | "gt" => do pure (.bool (← pyLt f b a))
    | "lteq" => do pure (.bool (!(← pyLt f b a)))
    | "gteq" => do pure (.bool (!(← pyLt f a b)))
    | "in" => do pure (.bool (← pyIn f a b))
    | "notin" => do pure (.bool (!(← pyIn f a b)))
    | _ => .error (.other "unknown comparison operator")

def typeError : Err := .other "TypeError: unsupported operand type"

/-- `operator.add`. -/
def pyAdd : Value → Value → Except Err Value
  | .float _, _ => .error floatNotModelled
  | _, .float _ => .error floatNotModelled
  | a, b =>
    match numAsInt a, numAsInt b with
    | some x, some y => .ok (.int (x + y))
    | _, _ =>
      match a, b with
      | .str s, .str t => .ok (.str (s ++ t))
      | .list xs, .list ys => .ok (.list (xs ++ ys))
      | .tup xs, .tup ys => .ok (.tup (xs ++ ys))
      | _, _ => .error typeError

/-- `operator.sub`. -/
def pySub : Value → Value → Except Err Value
  | .float _, _ => .error floatNotModelled
  | _, .float _ => .error floatNotModelled
  | a, b =>
    match numAsInt a, numAsInt b with
    | some x, some y => .ok (.int (x - y))
    | _, _ => .error typeError

def pyRepeat {α : Type} (l : List α) (n : Int) : List α :=
  (List.range n.toNat).flatMap (fun _ => l)

/-- `operator.mul` (including Python sequence repetition). -/
def pyMul : Value → Value → Except Err Value
  | .float _, _ => .error floatNotModelled
  | _, .float _ => .error floatNotModelled
  | a, b =>
    match numAsInt a, numAsInt b with
    | some x, some y => .ok (.int (x * y))
    | some n, Option.none =>
      match b with
      | .str s => .ok (.str (String.mk (pyRepeat s.toList n)))
      | .list xs => .ok (.list (pyRepeat xs n))
      | .tup xs => .ok (.tup (pyRepeat xs n))
      | _ => .error typeError
    | Option.none, some n =>
      match a with
      | .str s => .ok (.str (String.mk (pyRepeat s.toList n)))
      | .list xs => .ok (.list (pyRepeat xs n))
      | .tup xs => .ok (.tup (pyRepeat xs n))
      | _ => .error typeError
    | _, _ => .error typeError

/-- `operator.truediv`: true division always produces a float. -/
def pyDiv : Value → Value → Except Err Value
  | a, b =>
    match numAsInt a, numAsInt b with
    | some _, some y =>
      if y = 0 then .error (.other "ZeroDivisionError")
      else .error floatNotModelled
    | _, _ => .error typeError

/-- `operator.floordiv` (Python floors toward negative infinity). -/
def pyFloorDiv : Value → Value → Except Err Value
  | a, b =>
    match numAsInt a, numAsInt b with
    | some x, some y =>
      if y = 0 then .error (.other "ZeroDivisionError")
      else .ok (.int (Int.fdiv x y))
    | _, _ => .error typeError

/-- `operator.mod` (sign follows the divisor, as in Python). -/
def pyMod : Value → Value → Except Err Value
  | a, b =>
    match numAsInt a, numAsInt b with
    | some x, some y =>
      if y = 0 then .error (.other "ZeroDivisionError")
      else .ok (.int (Int.fmod x y))
    | _, _ => .error typeError

/-- `operator.pow`; a negative exponent gives a float. -/
def pyPow : Value → Value → Except Err Value
  | a, b =>
    match numAsInt a, numAsInt b with
    | some x, some y =>
      if y < 0 then .error floatNotModelled
      else .ok (.int (x ^ y.toNat))
    | _, _ => .error typeError

/-- `operator.neg`. -/
def pyNeg : Value → Except Err Value
  | v =>
    match numAsInt v with
    | some x => .ok (.int (-x))
    | Option.none => .error typeError

/-- `operator.pos` (`+True` is the int 1). -/
def pyPos : Value → Except Err Value
  | .int n => .ok (.int n)
  | .bool b => .ok (.int (if b then 1 else 0))
  | _ => .error typeError

mutual

/-- Python `unicode()` of a value (string escaping inside `repr` is
elided; no claim inspects it). -/
def pyStr : Nat → Value → Except Err String
  | 0, _ => .error .fuel
  | f + 1, v =>
    match v with
    | .none => .ok "None"
    | .bool b => .ok (if b then "True" else "False")
    | .int n => .ok (toString n)
    | .float raw => .ok raw
    | .str s => .ok s
    | .list xs => do pure ("[" ++ (← pyReprJoin f xs) ++ "]")
    | .tup xs =>
      match xs with
      | [x] => do pure ("(" ++ (← pyRepr f x) ++ ",)")
      | _ => do pure ("(" ++ (← pyReprJoin f xs) ++ ")")
    | .dict es => do pure ("\x7b" ++ (← pyReprPairs f es) ++ "\x7d")
    | .repc _ _ => .error (.other "object repr not modelled")
    | .nullCls => .error (.other "class repr not modelled")
termination_by structural f _ => f

def pyRepr : Nat → Value → Except Err String
  | 0, _ => .error .fuel
  | f + 1, v =>
    match v with
    | .str s => .ok ("'" ++ s ++ "'")
    | _ => pyStr f v
termination_by structural f _ => f

def pyReprJoin : Nat → List Value → Except Err String
  | 0, _ => .error .fuel
  | _ + 1, [] => .ok ""
  | f + 1, [x] => pyRepr f x
  | f + 1, x :: y :: rest => do
    pure ((← pyRepr f x) ++ ", " ++ (← pyReprJoin f (y :: rest)))
termination_by structural f _ => f

def pyReprPairs : Nat → List (Value × Value) → Except Err String
  | 0, _ => .error .fuel
  | _ + 1, [] => .ok ""
  | f + 1, [(k, v)] => do pure ((← pyRepr f k) ++ ": " ++ (← pyRepr f v))
  | f + 1, (k, v) :: p :: rest => do
    pure ((← pyRepr f k) ++ ": " ++ (← pyRepr f v) ++ ", " ++
      (← pyReprPairs f (p :: rest)))
termination_by structural f _ => f

end

/-- Python `int()` of a string: optional surrounding whitespace,
optional sign, at least one digit. -/
def pyIntOfString (s : String) : Option Int :=
  let cs := s.toList.dropWhile isSpaceCh
  let cs := (cs.reverse.dropWhile isSpaceCh).reverse
  match cs with
  | '+' :: ds => natDigits ds
  | '-' :: ds => (natDigits ds).map (fun n => -n)
  | ds => natDigits ds
where
  natDigits (ds : List Char) : Option Int :=
    if !ds.isEmpty && ds.all isDigitCh then
      some (Int.ofNat (pyParseNatDigits ds)) else Option.none

/-- `int()` of a lexer float (spelled `digits.digits`): truncation. -/
def floatTrunc (raw : String) : Int :=
  Int.ofNat (pyParseNatDigits (raw.toList.takeWhile isDigitCh))

/-- The two ways `int()` can fail, mirrored because
`IntegerValue.clean` catches only `ValueError`. -/
inductive CoerceErr where
  | valueError
  | typeError
deriving DecidableEq, Repr

/-- Python `int(value)`. -/
def pyIntCoerce : Value → Except CoerceErr Int
  | .int n => .ok n
  | .bool b => .ok (if b then 1 else 0)
  | .float raw => .ok (floatTrunc raw)
  | .str s =>
    match pyIntOfString s with
    | some n => .ok n
    | Option.none => .error .valueError
  | _ => .error .typeError

/-! ## Expression AST (`nodes.py`) -/

/-- The expression node types the parser builds.  `Operand`s are the
`(op, expr)` pairs of `compare`; `Keyword` helper nodes are the
`(key, value)` pairs in `kwargs` lists; `Pair` nodes are the entries of
`dict`.  A `filterE` node keeps the filter's name (the looked-up filter
function itself is an external collaborator). -/
inductive Expr where
  | const (value : Value)
  | name (name : String)
  | tup (items : List Expr)
  | listE (items : List Expr)
  | dict (items : List (Expr × Expr))
  | condExpr (test expr1 : Expr) (expr2 : Option Expr)
  | filterE (node : Expr) (name : String) (args : List Expr)
      (kwargs : List (String × Expr)) (dynArgs dynKwargs : Option Expr)
  | testE (node : Expr) (name : String) (args : List Expr)
      (kwargs : List (String × Expr)) (dynArgs dynKwargs : Option Expr)
  | call (node : Expr) (args : List Expr) (kwargs : List (String × Expr))
      (dynArgs dynKwargs : Option Expr)
  | getitem (node arg : Expr)
  | getattr (node : Expr) (attr : String)
  | slice (start stop step : Option Expr)
  | concat (nodes : List Expr)
  | compare (expr : Expr) (ops : List (String × Expr))
  | mul (left right : Expr)
  | div (left right : Expr)
  | floordiv (left right : Expr)
  | add (left right : Expr)
  | sub (left right : Expr)
  | mod (left right : Expr)
  | pow (left right : Expr)
  | and (left right : Expr)
  | or (left right : Expr)
  | not (node : Expr)
  | neg (node : Expr)
  | pos (node : Expr)
deriving Repr

/-- `Name.__init__` refuses `and`/`or` with a `BaseError`. -/
def mkName (n : String) : Except Err Expr :=
  if n == "and" || n == "or" then
    .error (.base (.baseMsg ("\"" ++ n ++
      "\" is a reserved keyword and cannot be used as a name for a variable or a function.")))
  else .ok (.name n)

/-- The subscript stage of `resolve_lookup`: dictionary lookup, then
sequence/str indexing for an integer key (Python negative indices count
from the end); `none` means this stage raised and the chain falls
through. -/
def subscriptLookup : Nat → Value → Value → Except Err (Option Value)
  | 0, _, _ => .error .fuel
  | f + 1, key, store =>
    match store with
    | .dict entries => dictFind f entries key
    | .list xs => .ok (indexGet xs key)
    | .tup xs => .ok (indexGet xs key)
    | .str s =>
      match numAsInt key with
      | some i =>
        .ok ((indexGet s.toList (.int i)).map (fun c => .str (String.mk [c])))
      | Option.none => .ok Option.none
    | _ => .ok Option.none
where
  indexGet {α : Type} (xs : List α) (key : Value) : Option α :=
    match numAsInt key with
    | some i =>
      let n : Int := xs.length
      let j := if i < 0 then i + n else i
      if 0 ≤ j ∧ j < n then xs.get? j.toNat else Option.none
    | Option.none => Option.none

/-- `int(key)` as used by the list-index stage of `resolve_lookup`. -/
def pyIntKey : Value → Option Int
  | .int n => some n
  | .bool b => some (if b then 1 else 0)
  | .float raw => some (floatTrunc raw)
  | .str s => pyIntOfString s
  | _ => Option.none

/-- `nodes.resolve_lookup`: container-style lookup, then attribute
lookup (pure data values expose no attributes, so that stage always
falls through), then integer-index lookup; a miss raises the
`VariableDoesNotExist` soft-fail.  Data values are never callable, so
the auto-call step is the identity here. -/
def resolveLookup : Nat → Value → Value → Except Err Value
  | 0, _, _ => .error .fuel
  | f + 1, key, store => do
    match (← subscriptLookup f key store) with
    | some v => pure v
    | Option.none =>
      match pyIntKey key with
      | some i => do
        match (← subscriptLookup f (.int i) store) with
        | some v => pure v
        | Option.none => .error .varDoesNotExist
      | Option.none => .error .varDoesNotExist

/-- `Name.resolve`: keyword literals short-circuit; `_` is the external
translation callable; everything else goes through `resolve_lookup`
against the context. -/
def nameResolve (f : Nat) (n : String) (ctx : Value) : Except Err Value :=
  if n == "none" || n == "None" then .ok .none
  else if n == "true" || n == "True" then .ok (.bool true)
  else if n == "false" || n == "False" then .ok (.bool false)
  else if n == "_" then .error (.other "ugettext not modelled")
  else resolveLookup f (.str n) ctx

/-- `Expr.resolve_safe` over an abstract resolver: absorb the
soft-fail into `None`. -/
def safeRes (r : Expr → Except Err Value) (e : Expr) : Except Err Value :=
  match r e with
  | .error .varDoesNotExist => .ok .none
  | res => res

/-- One element of `Tuple.resolve` / `List.resolve`: the soft-fail is
replaced by the empty string, any other error propagates. -/
def softItem (r : Expr → Except Err Value) (e : Expr) : Except Err Value :=
  match r e with
  | .error .varDoesNotExist => .ok (.str "")
  | res => res

/-- The element loop of `Tuple.resolve` / `List.resolve`. -/
def resolveItemsAux (r : Expr → Except Err Value) :
    List Expr → Except Err (List Value)
  | [] => .ok []
  | item :: rest =>
    match softItem r item with
    | .error err => .error err
    | .ok v =>
      match resolveItemsAux r rest with
      | .error err => .error err
      | .ok vs => .ok (v :: vs)

/-- The key half of `Pair.resolve`: a key soft-fail becomes a hard
`NameError` (built from `self.key.name`, which only `Name` keys
have). -/
def pairKeyRes (r : Expr → Except Err Value) (k : Expr) :
    Except Err Value :=
  match r k with
  | .error .varDoesNotExist =>
    match k with
    | .name n =>
      .error (.other ("NameError: Cannot resolve key with variable name '"
        ++ n ++ "'"))
    | _ => .error (.other "AttributeError: key node has no attribute name")
  | res => res

/-- The pair loop of `Dict.resolve`: each `Pair.resolve` result stored
by dict assignment (`g` is the fuel for the value-equality used by the
assignment). -/
def resolvePairsAux (g : Nat) (r : Expr → Except Err Value) :
    List (Expr × Expr) → List (Value × Value) →
    Except Err (List (Value × Value))
  | [], acc => .ok acc
  | (k, v) :: rest, acc =>
    match pairKeyRes r k with
    | .error err => .error err
    | .ok rk =>
      match softItem r v with
      | .error err => .error err
      | .ok rv =>
        match dictSet g acc rk rv with
        | .error err => .error err
        | .ok acc' => resolvePairsAux g r rest acc'

/-- Argument lists resolved with errors propagating (filter
arguments). -/
def resolveAllAux (r : Expr → Except Err Value) :
    List Expr → Except Err (List Value)
  | [] => .ok []
  | e :: rest => do pure ((← r e) :: (← resolveAllAux r rest))

/-- `Keyword.resolve` over a kwargs list: a value soft-fail becomes
the empty string. -/
def resolveKwargsAux (r : Expr → Except Err Value) :
    List (String × Expr) → Except Err (List (Value × Value))
  | [] => .ok []
  | (k, v) :: rest => do
    pure ((Value.str k, ← softItem r v) :: (← resolveKwargsAux r rest))

/-- A `Slice` field that is Python `None` has no `resolve` method. -/
def sliceFieldRes (r : Expr → Except Err Value) :
    Option Expr → Except Err Value
  | some e => r e
  | Option.none =>
    .error (.other "AttributeError: NoneType has no attribute resolve")

/-- The `Concat.resolve` join (`g` is the fuel for `unicode()`). -/
def concatGoAux (g : Nat) (r : Expr → Except Err Value) :
    List Expr → Except Err String
  | [] => .ok ""
  | e :: rest => do
    let v ← r e
    let s ← pyStr g v
    pure (s ++ (← concatGoAux g r rest))

/-- The operand fold of `Compare.resolve`: the previous result becomes
the left operand of the next comparison. -/
def compareFoldAux (g : Nat) (r : Expr → Except Err Value) :
    Value → List (String × Expr) → Except Err Value
  | curr, [] => .ok curr
  | curr, (op, e) :: rest => do
    let rhs ← safeRes r e
    let res ← pyCmpOp g op curr rhs
    compareFoldAux g r res rest

/-- `resolve(context)` of every expression node, translated case by
case from `nodes.py`.  The context is a dict-like value. -/
def Expr.resolve : Nat → Expr → Value → Except Err Value
  | 0, _, _ => .error .fuel
  | f + 1, e, ctx =>
    match e with
    | .const v => .ok v
    | .name n => nameResolve f n ctx
    | .tup items =>
      match resolveItemsAux (fun e' => Expr.resolve f e' ctx) items with
      | .ok vs => .ok (.tup vs)
      | .error err => .error err
    | .listE items =>
      match resolveItemsAux (fun e' => Expr.resolve f e' ctx) items with
      | .ok vs => .ok (.list vs)
      | .error err => .error err
    | .dict pairs =>
      match resolvePairsAux f (fun e' => Expr.resolve f e' ctx) pairs [] with
      | .ok es => .ok (.dict es)
      | .error err => .error err
    | .condExpr test expr1 expr2 => do
      let t ← Expr.resolve f test ctx
      let v1 ← Expr.resolve f expr1 ctx
      let v2 ← match expr2 with
        | some e2 => Expr.resolve f e2 ctx
        | Option.none =>
          .error (.other "AttributeError: NoneType has no attribute resolve")
      if (← pyBool t) then pure v1 else pure v2
    | .filterE node _ args kwargs dynArgs dynKwargs => do
      let _ ← safeRes (fun e' => Expr.resolve f e' ctx) node
      let _ ← resolveAllAux (fun e' => Expr.resolve f e' ctx) args
      let _ ← resolveKwargsAux (fun e' => Expr.resolve f e' ctx) kwargs
      let _ ← match dynArgs with
        | some d => Expr.resolve f d ctx
        | Option.none => pure .none
      let _ ← match dynKwargs with
        | some d => Expr.resolve f d ctx
        | Option.none => pure .none
      .error (.other "filter function application not modelled")
    | .testE _ _ _ _ _ _ =>
      -- Test.resolve drops into the debugger (`pdb.set_trace()`)
      .error (.other "pdb.set_trace")
    | .call node _ _ _ _ => do
      match Expr.resolve f node ctx with
      | .error .varDoesNotExist =>
        .error (.other "NameError: function name is not defined")
      | .error err => .error err
      | .ok _ =>
        -- pure data values never expose `__call__`
        .error (.other "NameError: object is not callable")
    | .getitem node arg => do
      let key ← Expr.resolve f arg ctx
      let store ← Expr.resolve f node ctx
      resolveLookup f key store
    | .getattr node attr => do
      let store ← Expr.resolve f node ctx
      resolveLookup f (.str attr) store
    | .slice start stop step => do
      let s ← sliceFieldRes (fun e' => Expr.resolve f e' ctx) start
      let e' ← sliceFieldRes (fun e' => Expr.resolve f e' ctx) stop
      let st ← sliceFieldRes (fun e' => Expr.resolve f e' ctx) step
      pure (.tup [s, e', st])
    | .concat nodes =>
      match concatGoAux f (fun e' => Expr.resolve f e' ctx) nodes with
      | .ok s => .ok (.str s)
      | .error err => .error err
    | .compare expr ops => do
      let curr ← safeRes (fun e' => Expr.resolve f e' ctx) expr
      compareFoldAux f (fun e' => Expr.resolve f e' ctx) curr ops
    | .mul l r => do pyMul (← Expr.resolve f l ctx) (← Expr.resolve f r ctx)
    | .div l r => do pyDiv (← Expr.resolve f l ctx) (← Expr.resolve f r ctx)
    | .floordiv l r => do
      pyFloorDiv (← Expr.resolve f l ctx) (← Expr.resolve f r ctx)
    | .add l r => do pyAdd (← Expr.resolve f l ctx) (← Expr.resolve f r ctx)
    | .sub l r => do pySub (← Expr.resolve f l ctx) (← Expr.resolve f r ctx)
    | .mod l r => do pyMod (← Expr.resolve f l ctx) (← Expr.resolve f r ctx)
    | .pow l r => do pyPow (← Expr.resolve f l ctx) (← Expr.resolve f r ctx)
    | .and l r => do
      let lv ← safeRes (fun e' => Expr.resolve f e' ctx) l
      if (← pyBool lv) then safeRes (fun e' => Expr.resolve f e' ctx) r
      else pure lv
    | .or l r => do
      let lv ← safeRes (fun e' => Expr.resolve f e' ctx) l
      if (← pyBool lv) then pure lv
      else safeRes (fun e' => Expr.resolve f e' ctx) r
    | .not n => do
      let v ← safeRes (fun e' => Expr.resolve f e' ctx) n
      pure (.bool (!(← pyBool v)))
    | .neg n => do pyNeg (← Expr.resolve f n ctx)
    | .pos n => do pyPos (← Expr.resolve f n ctx)
termination_by structural f _ _ => f

/-! ## Expression parser (`expr_parser.py`)

One Lean function per `ExprParser` method (plus one function per
`while` loop).  `ParseEnv` stands for the external django parser: the
only thing the expression parser uses it for is `find_filter`, so it
carries the names of the registered filters.  `self.fail` raises a
plain `TemplateSyntaxError` (never a `BaseError`), while
`stream.expect` raises `UnexpectedTokenError`, which *is* a
`BaseError`. -/

structure ParseEnv where
  filters : List String
deriving Repr

def strOfTokVal : TokVal → String
  | .str s => s
  | .int n => toString n
  | .float r => r

def tokValToValue : TokVal → Value
  | .str s => .str s
  | .int n => .int n
  | .float r => .float r

/-- `_compare_operators`. -/
def compareOperators : List String := ["eq", "ne", "lt", "lteq", "gt", "gteq"]

/-- `is_tuple_end` (an empty `extraEndRules` list models `None`). -/
def isTupleEnd (s : TokenStream) (extraEndRules : List String) : Bool :=
  if s.current.type == "variable_end" || s.current.type == "block_end" ||
     s.current.type == "rparen" then true
  else if !extraEndRules.isEmpty then s.current.testAny extraEndRules
  else false

/-- The parts `parse_call(None)` returns: positional args, keyword
args, `*args` spread, `**kwargs` spread. -/
abbrev CallParts :=
  List Expr × List (String × Expr) × Option Expr × Option Expr

/-- The tail of `parse_tuple` after its loop: unwrap a 1-element
non-tuple, reject an implicit empty tuple, otherwise build `Tuple`. -/
def tupleFinish (explicitParens : Bool) (args : List Expr) (isTuple : Bool)
    (s : TokenStream) : Except Err (Expr × TokenStream) :=
  if !isTuple then
    match args with
    | a :: _ => .ok (a, s)
    | [] =>
      if !explicitParens then
        .error (.syntaxErr ("Expected an expression, got '" ++
          describeToken s.current ++ "'"))
      else .ok (.tup [], s)
  else .ok (.tup args, s)

mutual

/-- `parse_expression`. -/
def parseExpression : Nat → ParseEnv → Bool → TokenStream →
    Except Err (Expr × TokenStream)
  | 0, _, _, _ => .error .fuel
  | f + 1, env, withCondexpr, s =>
    if withCondexpr then parseCondexpr f env s else parseOr f env s
termination_by structural f _ _ _ => f

/-- `parse_condexpr`. -/
def parseCondexpr : Nat → ParseEnv → TokenStream →
    Except Err (Expr × TokenStream)
  | 0, _, _ => .error .fuel
  | f + 1, env, s => do
    let (expr1, s1) ← parseOr f env s
    condexprWhile f env expr1 s1
termination_by structural f _ _ => f

def condexprWhile : Nat → ParseEnv → Expr → TokenStream →
    Except Err (Expr × TokenStream)
  | 0, _, _, _ => .error .fuel
  | f + 1, env, expr1, s =>
    match s.skipIf "name:if" with
    | (true, s1) => do
      let (expr2, s2) ← parseOr f env s1
      match s2.skipIf "name:else" with
      | (true, s3) => do
        let (expr3, s4) ← parseCondexpr f env s3
        condexprWhile f env (.condExpr expr2 expr1 (some expr3)) s4
      | (false, s3) =>
        condexprWhile f env (.condExpr expr2 expr1 Option.none) s3
    | (false, s1) => .ok (expr1, s1)
termination_by structural f _ _ _ => f

/-- `parse_or`. -/
def parseOr : Nat → ParseEnv → TokenStream → Except Err (Expr × TokenStream)
  | 0, _, _ => .error .fuel
  | f + 1, env, s => do
    let (left, s1) ← parseAnd f env s
    orWhile f env left s1
termination_by structural f _ _ => f

def orWhile : Nat → ParseEnv → Expr → TokenStream →
    Except Err (Expr × TokenStream)
  | 0, _, _, _ => .error .fuel
  | f + 1, env, left, s =>
    match s.skipIf "name:or" with
    | (true, s1) => do
      let (right, s2) ← parseAnd f env s1
      orWhile f env (.or left right) s2
    | (false, s1) => .ok (left, s1)
termination_by structural f _ _ _ => f

/-- `parse_and`. -/
def parseAnd : Nat → ParseEnv → TokenStream → Except Err (Expr × TokenStream)
  | 0, _, _ => .error .fuel
  | f + 1, env, s => do
    let (left, s1) ← parseNot f env s
    andWhile f env left s1
termination_by structural f _ _ => f

def andWhile : Nat → ParseEnv → Expr → TokenStream →
    Except Err (Expr × TokenStream)
  | 0, _, _, _ => .error .fuel
  | f + 1, env, left, s =>
    match s.skipIf "name:and" with
    | (true, s1) => do
      let (right, s2) ← parseNot f env s1
      andWhile f env (.and left right) s2
    | (false, s1) => .ok (left, s1)
termination_by structural f _ _ _ => f

/-- `parse_not`. -/
def parseNot : Nat → ParseEnv → TokenStream → Except Err (Expr × TokenStream)
  | 0, _, _ => .error .fuel
  | f + 1, env, s =>
    if s.current.test "name:not" then do
      let (n, s2) ← parseNot f env s.next.2
      .ok (.not n, s2)
    else parseCompare f env s
termination_by structural f _ _ => f

/-- `parse_compare`. -/
def parseCompare : Nat → ParseEnv → TokenStream →
    Except Err (Expr × TokenStream)
  | 0, _, _ => .error .fuel
  | f + 1, env, s => do
    let (expr, s1) ← parseAdd f env s
    compareWhile f env expr [] s1
termination_by structural f _ _ => f

def compareWhile : Nat → ParseEnv → Expr → List (String × Expr) →
    TokenStream → Except Err (Expr × TokenStream)
  | 0, _, _, _, _ => .error .fuel
  | f + 1, env, expr, ops, s =>
    -- `=` is a deprecated alias for `==` (the DeprecationWarning it
    -- emits is not modelled)
    let tokenType :=
      if s.current.type == "assign" then "eq" else s.current.type
    if compareOperators.contains tokenType then do
      let (rhs, s2) ← parseAdd f env s.next.2
      compareWhile f env expr (ops ++ [(tokenType, rhs)]) s2
    else
      match s.skipIf "name:in" with
      | (true, s1) => do
        let (rhs, s2) ← parseAdd f env s1
        compareWhile f env expr (ops ++ [("in", rhs)]) s2
      | (false, s1) =>
        if s1.current.test "name:not" && (s1.look).test "name:in" then do
          let (rhs, s2) ← parseAdd f env (s1.skip 2)
          compareWhile f env expr (ops ++ [("notin", rhs)]) s2
        else if ops.isEmpty then .ok (expr, s1)
        else .ok (.compare expr ops, s1)
termination_by structural f _ _ _ _ => f

/-- `parse_add`. -/
def parseAdd : Nat → ParseEnv → TokenStream → Except Err (Expr × TokenStream)
  | 0, _, _ => .error .fuel
  | f + 1, env, s => do
    let (left, s1) ← parseSub f env s
    addWhile f env left s1
termination_by structural f _ _ => f

def addWhile : Nat → ParseEnv → Expr → TokenStream →
    Except Err (Expr × TokenStream)
  | 0, _, _, _ => .error .fuel
  | f + 1, env, left, s =>
    if s.current.type == "add" then do
      let (right, s2) ← parseSub f env s.next.2
      addWhile f env (.add left right) s2
    else .ok (left, s)
termination_by structural f _ _ _ => f

/-- `parse_sub`. -/
def parseSub : Nat → ParseEnv → TokenStream → Except Err (Expr × TokenStream)
  | 0, _, _ => .error .fuel
  | f + 1, env, s => do
    let (left, s1) ← parseConcat f env s
    subWhile f env left s1
termination_by structural f _ _ => f

def subWhile : Nat → ParseEnv → Expr → TokenStream →
    Except Err (Expr × TokenStream)
  | 0, _, _, _ => .error .fuel
  | f + 1, env, left, s =>
    if s.current.type == "sub" then do
      let (right, s2) ← parseConcat f env s.next.2
      subWhile f env (.sub left right) s2
    else .ok (left, s)
termination_by structural f _ _ _ => f

/-- `parse_concat`. -/
def parseConcat : Nat → ParseEnv → TokenStream →
    Except Err (Expr × TokenStream)
  | 0, _, _ => .error .fuel
  | f + 1, env, s => do
    let (first, s1) ← parseMul f env s
    concatWhile f env [first] s1
termination_by structural f _ _ => f

def concatWhile : Nat → ParseEnv → List Expr → TokenStream →
    Except Err (Expr × TokenStream)
  | 0, _, _, _ => .error .fuel
  | f + 1, env, args, s =>
    if s.current.type == "tilde" then do
      let (nxt, s2) ← parseMul f env s.next.2
      concatWhile f env (args ++ [nxt]) s2
    else
      match args with
      | [single] => .ok (single, s)
      | _ => .ok (.concat args, s)
termination_by structural f _ _ _ => f

/-- `parse_mul`. -/
def parseMul : Nat → ParseEnv → TokenStream → Except Err (Expr × TokenStream)
  | 0, _, _ => .error .fuel
  | f + 1, env, s => do
    let (left, s1) ← parseDiv f env s
    mulWhile f env left s1
termination_by structural f _ _ => f

def mulWhile : Nat → ParseEnv → Expr → TokenStream →
    Except Err (Expr × TokenStream)
  | 0, _, _, _ => .error .fuel
  | f + 1, env, left, s =>
    if s.current.type == "mul" then do
      let (right, s2) ← parseDiv f env s.next.2
      mulWhile f env (.mul left right) s2
    else .ok (left, s)
termination_by structural f _ _ _ => f

/-- `parse_div`. -/
def parseDiv : Nat → ParseEnv → TokenStream → Except Err (Expr × TokenStream)
  | 0, _, _ => .error .fuel
  | f + 1, env, s => do
    let (left, s1) ← parseFloordiv f env s
    divWhile f env left s1
termination_by structural f _ _ => f

def divWhile : Nat → ParseEnv → Expr → TokenStream →
    Except Err (Expr × TokenStream)
  | 0, _, _, _ => .error .fuel
  | f + 1, env, left, s =>
    if s.current.type == "div" then do
      let (right, s2) ← parseFloordiv f env s.next.2
      divWhile f env (.div left right) s2
    else .ok (left, s)
termination_by structural f _ _ _ => f

/-- `parse_floordiv`. -/
def parseFloordiv : Nat → ParseEnv → TokenStream →
    Except Err (Expr × TokenStream)
  | 0, _, _ => .error .fuel
  | f + 1, env, s => do
    let (left, s1) ← parseMod f env s
    floordivWhile f env left s1
termination_by structural f _ _ => f

def floordivWhile : Nat → ParseEnv → Expr → TokenStream →
    Except Err (Expr × TokenStream)
  | 0, _, _, _ => .error .fuel
  | f + 1, env, left, s =>
    if s.current.type == "floordiv" then do
      let (right, s2) ← parseMod f env s.next.2
      floordivWhile f env (.floordiv left right) s2
    else .ok (left, s)
termination_by structural f _ _ _ => f

/-- `parse_mod`. -/
def parseMod : Nat → ParseEnv → TokenStream → Except Err (Expr × TokenStream)
  | 0, _, _ => .error .fuel
  | f + 1, env, s => do
    let (left, s1) ← parsePow f env s
    modWhile f env left s1
termination_by structural f _ _ => f

def modWhile : Nat → ParseEnv → Expr → TokenStream →
    Except Err (Expr × TokenStream)
  | 0, _, _, _ => .error .fuel
  | f + 1, env, left, s =>
    if s.current.type == "mod" then do
      let (right, s2) ← parsePow f env s.next.2
      modWhile f env (.mod left right) s2
    else .ok (left, s)
termination_by structural f _ _ _ => f

/-- `parse_pow`: one precedence level whose loop folds repeated `**`
to the left (`left = nodes.Pow(left, right)`). -/
def parsePow : Nat → ParseEnv → TokenStream → Except Err (Expr × TokenStream)
  | 0, _, _ => .error .fuel
  | f + 1, env, s => do
    let (left, s1) ← parseUnary f env true s
    powWhile f env left s1
termination_by structural f _ _ => f

def powWhile : Nat → ParseEnv → Expr → TokenStream →
    Except Err (Expr × TokenStream)
  | 0, _, _, _ => .error .fuel
  | f + 1, env, left, s =>
    if s.current.type == "pow" then do
      let (right, s2) ← parseUnary f env true s.next.2
      powWhile f env (.pow left right) s2
    else .ok (left, s)
termination_by structural f _ _ _ => f

/-- `parse_unary`. -/
def parseUnary : Nat → ParseEnv → Bool → TokenStream →
    Except Err (Expr × TokenStream)
  | 0, _, _, _ => .error .fuel
  | f + 1, env, withFilter, s => do
    let (node, s1) ←
      if s.current.type == "sub" then do
        let (n, s') ← parseUnary f env false s.next.2
        pure (Expr.neg n, s')
      else if s.current.type == "add" then do
        let (n, s') ← parseUnary f env false s.next.2
        pure (Expr.pos n, s')
      else parsePrimary f env s
    let (node2, s2) ← parsePostfix f env node s1
    if withFilter then parseFilterExpr f env node2 s2 else .ok (node2, s2)
termination_by structural f _ _ _ => f

/-- `parse_primary`. -/
def parsePrimary : Nat → ParseEnv → TokenStream →
    Except Err (Expr × TokenStream)
  | 0, _, _ => .error .fuel
  | f + 1, env, s => do
    let token := s.current
    if token.type == "name" then do
      let v := strOfTokVal token.value
      let node ←
        if v == "true" || v == "false" || v == "True" || v == "False" then
          pure (Expr.const (.bool (v == "true" || v == "True")))
        else if v == "none" || v == "None" then pure (Expr.const .none)
        else mkName v
      .ok (node, s.next.2)
    else if token.type == "string" then
      .ok (.const (tokValToValue token.value), s.next.2)
    else if token.type == "integer" || token.type == "float" then
      .ok (.const (tokValToValue token.value), s.next.2)
    else if token.type == "lparen" then do
      let (node, s2) ← parseTuple f env false true [] true s.next.2
      let (_, s3) ← s2.expect "rparen"
      .ok (node, s3)
    else if token.type == "lbracket" then parseList f env s
    else if token.type == "lbrace" then parseDict f env s
    else .error (.syntaxErr ("unexpected '" ++ describeToken token ++ "'"))
termination_by structural f _ _ => f

/-- `parse_tuple`. -/
def parseTuple : Nat → ParseEnv → Bool → Bool → List String → Bool →
    TokenStream → Except Err (Expr × TokenStream)
  | 0, _, _, _, _, _, _ => .error .fuel
  | f + 1, env, simplified, withCondexpr, extraEndRules, explicitParens, s =>
    tupleWhile f env simplified withCondexpr extraEndRules explicitParens
      [] false s
termination_by structural f _ _ _ _ _ _ => f

def tupleWhile : Nat → ParseEnv → Bool → Bool → List String → Bool →
    List Expr → Bool → TokenStream → Except Err (Expr × TokenStream)
  | 0, _, _, _, _, _, _, _, _ => .error .fuel
  | f + 1, env, simplified, withCondexpr, extraEndRules, explicitParens,
      args, isTuple, s => do
    let s1 ←
      if args.isEmpty then pure s
      else do
        let (_, s') ← s.expect "comma"
        pure s'
    if isTupleEnd s1 extraEndRules then
      tupleFinish explicitParens args isTuple s1
    else do
      let (e, s2) ←
        if simplified then parsePrimary f env s1
        else parseExpression f env withCondexpr s1
      if s2.current.type == "comma" then
        tupleWhile f env simplified withCondexpr extraEndRules
          explicitParens (args ++ [e]) true s2
      else tupleFinish explicitParens (args ++ [e]) isTuple s2
termination_by structural f _ _ _ _ _ _ _ _ => f

/-- `parse_list`. -/
def parseList : Nat → ParseEnv → TokenStream → Except Err (Expr × TokenStream)
  | 0, _, _ => .error .fuel
  | f + 1, env, s => do
    let (_, s1) ← s.expect "lbracket"
    listWhile f env [] s1
termination_by structural f _ _ => f

def listWhile : Nat → ParseEnv → List Expr → TokenStream →
    Except Err (Expr × TokenStream)
  | 0, _, _, _ => .error .fuel
  | f + 1, env, items, s =>
    if s.current.type != "rbracket" then do
      let s1 ←
        if items.isEmpty then pure s
        else do
          let (_, s') ← s.expect "comma"
          pure s'
      if s1.current.type == "rbracket" then do
        let (_, s2) ← s1.expect "rbracket"
        .ok (.listE items, s2)
      else do
        let (e, s2) ← parseExpression f env true s1
        listWhile f env (items ++ [e]) s2
    else do
      let (_, s2) ← s.expect "rbracket"
      .ok (.listE items, s2)
termination_by structural f _ _ _ => f

/-- `parse_dict`. -/
def parseDict : Nat → ParseEnv → TokenStream → Except Err (Expr × TokenStream)
  | 0, _, _ => .error .fuel
  | f + 1, env, s => do
    let (_, s1) ← s.expect "lbrace"
    dictWhile f env [] s1
termination_by structural f _ _ => f

def dictWhile : Nat → ParseEnv → List (Expr × Expr) → TokenStream →
    Except Err (Expr × TokenStream)
  | 0, _, _, _ => .error .fuel
  | f + 1, env, items, s =>
    if s.current.type != "rbrace" then do
      let s1 ←
        if items.isEmpty then pure s
        else do
          let (_, s') ← s.expect "comma"
          pure s'
      if s1.current.type == "rbrace" then do
        let (_, s2) ← s1.expect "rbrace"
        .ok (.dict items, s2)
      else do
        let (key, s2) ← parseExpression f env true s1
        let (_, s3) ← s2.expect "colon"
        let (value, s4) ← parseExpression f env true s3
        dictWhile f env (items ++ [(key, value)]) s4
    else do
      let (_, s2) ← s.expect "rbrace"
      .ok (.dict items, s2)
termination_by structural f _ _ _ => f

/-- `parse_postfix`. -/
def parsePostfix : Nat → ParseEnv → Expr → TokenStream →
    Except Err (Expr × TokenStream)
  | 0, _, _, _ => .error .fuel
  | f + 1, env, node, s =>
    if s.current.type == "dot" || s.current.type == "lbracket" then do
      let (node2, s2) ← parseSubscript f env node s
      parsePostfix f env node2 s2
    else if s.current.type == "lparen" then do
      let (parts, s2) ← parseCallParts f env s
      parsePostfix f env (.call node parts.1 parts.2.1 parts.2.2.1 parts.2.2.2) s2
    else .ok (node, s)
termination_by structural f _ _ _ => f

/-- `parse_filter_expr`. -/
def parseFilterExpr : Nat → ParseEnv → Expr → TokenStream →
    Except Err (Expr × TokenStream)
  | 0, _, _, _ => .error .fuel
  | f + 1, env, node, s =>
    if s.current.type == "pipe" then do
      let (node2, s2) ← parseFilter f env node false s
      parseFilterExpr f env node2 s2
    else if s.current.type == "name" && s.current.value == .str "is" then do
      let (node2, s2) ← parseTest f env node s
      parseFilterExpr f env node2 s2
    else if s.current.type == "lparen" then do
      let (parts, s2) ← parseCallParts f env s
      parseFilterExpr f env (.call node parts.1 parts.2.1 parts.2.2.1 parts.2.2.2) s2
    else .ok (node, s)
termination_by structural f _ _ _ => f

/-- `parse_subscript`. -/
def parseSubscript : Nat → ParseEnv → Expr → TokenStream →
    Except Err (Expr × TokenStream)
  | 0, _, _, _ => .error .fuel
  | f + 1, env, node, s => do
    let (token, s1) := s.next
    if token.type == "dot" then do
      let attrToken := s1.current
      let s2 := s1.next.2
      if attrToken.type == "name" then
        .ok (.getattr node (strOfTokVal attrToken.value), s2)
      else if attrToken.type != "integer" then
        .error (.syntaxErr "expected name or number")
      else .ok (.getitem node (.const (tokValToValue attrToken.value)), s2)
    else if token.type == "lbracket" then do
      let (args, s2) ← subscriptArgs f env [] s1
      let arg := match args with
        | [single] => single
        | _ => Expr.tup args
      .ok (.getitem node arg, s2)
    else
      -- `self.fail('expected subscript expression', self.lineno)`
      -- evaluates the undefined attribute `self.lineno` first
      .error (.other "AttributeError: ExprParser has no attribute lineno")
termination_by structural f _ _ _ => f

def subscriptArgs : Nat → ParseEnv → List Expr → TokenStream →
    Except Err (List Expr × TokenStream)
  | 0, _, _, _ => .error .fuel
  | f + 1, env, args, s =>
    if s.current.type != "rbracket" then do
      let s1 ←
        if args.isEmpty then pure s
        else do
          let (_, s') ← s.expect "comma"
          pure s'
      let (a, s2) ← parseSubscribed f env s1
      subscriptArgs f env (args ++ [a]) s2
    else do
      let (_, s2) ← s.expect "rbracket"
      .ok (args, s2)
termination_by structural f _ _ _ => f

/-- `parse_subscribed`: an expression or a `start:stop:step` slice. -/
def parseSubscribed : Nat → ParseEnv → TokenStream →
    Except Err (Expr × TokenStream)
  | 0, _, _ => .error .fuel
  | f + 1, env, s => do
    let (start?, s1, early?) ←
      if s.current.type == "colon" then
        pure ((Option.none : Option Expr), s.next.2, (Option.none : Option Expr))
      else do
        let (node, s') ← parseExpression f env true s
        if s'.current.type != "colon" then
          pure ((Option.none : Option Expr), s', some node)
        else pure (some node, s'.next.2, (Option.none : Option Expr))
    match early? with
    | some node => .ok (node, s1)
    | Option.none => do
      let (stop?, s2) ←
        if s1.current.type == "colon" then
          pure ((Option.none : Option Expr), s1)
        else if s1.current.type != "rbracket" && s1.current.type != "comma"
        then do
          let (node, s') ← parseExpression f env true s1
          pure (some node, s')
        else pure ((Option.none : Option Expr), s1)
      let (step?, s3) ←
        if s2.current.type == "colon" then do
          let s' := s2.next.2
          if s'.current.type != "rbracket" && s'.current.type != "comma"
          then do
            let (node, s'') ← parseExpression f env true s'
            pure (some node, s'')
          else pure ((Option.none : Option Expr), s')
        else pure ((Option.none : Option Expr), s2)
      .ok (.slice start? stop? step?, s3)
termination_by structural f _ _ => f

/-- `parse_call` with `node=None`: return the parsed parts. -/
def parseCallParts : Nat → ParseEnv → TokenStream →
    Except Err (CallParts × TokenStream)
  | 0, _, _ => .error .fuel
  | f + 1, env, s => do
    let (_, s1) ← s.expect "lparen"
    callWhile f env [] [] Option.none Option.none false s1
termination_by structural f _ _ => f

def callWhile : Nat → ParseEnv → List Expr → List (String × Expr) →
    Option Expr → Option Expr → Bool → TokenStream →
    Except Err (CallParts × TokenStream)
  | 0, _, _, _, _, _, _, _ => .error .fuel
  | f + 1, env, args, kwargs, dynArgs, dynKwargs, requireComma, s =>
    if s.current.type != "rparen" then do
      let (s1, broke) ←
        if requireComma then do
          let (_, s') ← s.expect "comma"
          -- support for trailing comma
          pure (s', s'.current.type == "rparen")
        else pure (s, false)
      if broke then do
        let (_, s2) ← s1.expect "rparen"
        .ok ((args, kwargs, dynArgs, dynKwargs), s2)
      else if s1.current.type == "mul" then
        if dynArgs.isSome || dynKwargs.isSome then
          .error (.syntaxErr "invalid syntax for function call expression")
        else do
          let (e, s2) ← parseExpression f env true s1.next.2
          callWhile f env args kwargs (some e) dynKwargs true s2
      else if s1.current.type == "pow" then
        if dynKwargs.isSome then
          .error (.syntaxErr "invalid syntax for function call expression")
        else do
          let (e, s2) ← parseExpression f env true s1.next.2
          callWhile f env args kwargs dynArgs (some e) true s2
      else
        if dynArgs.isSome || dynKwargs.isSome then
          .error (.syntaxErr "invalid syntax for function call expression")
        else if s1.current.type == "name" && (s1.look).type == "assign"
        then do
          let key := strOfTokVal s1.current.value
          let (value, s2) ← parseExpression f env true (s1.skip 2)
          callWhile f env args (kwargs ++ [(key, value)]) dynArgs dynKwargs
            true s2
        else
          if !kwargs.isEmpty then
            .error (.syntaxErr "invalid syntax for function call expression")
          else do
            let (e, s2) ← parseExpression f env true s1
            callWhile f env (args ++ [e]) kwargs dynArgs dynKwargs true s2
    else do
      let (_, s2) ← s.expect "rparen"
      .ok ((args, kwargs, dynArgs, dynKwargs), s2)
termination_by structural f _ _ _ _ _ _ _ => f

/-- `parse_filter`. -/
def parseFilter : Nat → ParseEnv → Expr → Bool → TokenStream →
    Except Err (Expr × TokenStream)
  | 0, _, _, _, _ => .error .fuel
  | f + 1, env, node, startInline, s =>
    if s.current.type == "pipe" || startInline then do
      let s1 := if startInline then s else s.next.2
      let (tok, s2) ← s1.expect "name"
      let (name, s3) ← filterDots f (strOfTokVal tok.value) s2
      let ((args, kwargs, dynArgs, dynKwargs), s4) ←
        if s3.current.type == "lparen" then parseCallParts f env s3
        else if s3.current.type == "colon" then do
          let (a, s') ← parseUnary f env false s3.next.2
          pure ((([a], [], Option.none, Option.none) : CallParts), s')
        else pure ((([], [], Option.none, Option.none) : CallParts), s3)
      -- `find_filter` on the django parser: unknown names raise a
      -- plain TemplateSyntaxError
      if env.filters.contains name then
        parseFilter f env (.filterE node name args kwargs dynArgs dynKwargs)
          false s4
      else .error (.syntaxErr ("Invalid filter: '" ++ name ++ "'"))
    else .ok (node, s)
termination_by structural f _ _ _ _ => f

/-- The dotted-name loop shared by `parse_filter` and `parse_test`. -/
def filterDots : Nat → String → TokenStream →
    Except Err (String × TokenStream)
  | 0, _, _ => .error .fuel
  | f + 1, name, s =>
    if s.current.type == "dot" then do
      let (tok, s2) ← (s.next.2).expect "name"
      filterDots f (name ++ "." ++ strOfTokVal tok.value) s2
    else .ok (name, s)
termination_by structural f _ _ => f

/-- `parse_test`. -/
def parseTest : Nat → ParseEnv → Expr → TokenStream →
    Except Err (Expr × TokenStream)
  | 0, _, _, _ => .error .fuel
  | f + 1, env, node, s => do
    let s1 := s.next.2
    let (negated, s2) :=
      if s1.current.test "name:not" then (true, s1.next.2) else (false, s1)
    let (tok, s3) ← s2.expect "name"
    let (name, s4) ← filterDots f (strOfTokVal tok.value) s3
    let ((args, kwargs, dynArgs, dynKwargs), s5) ←
      if s4.current.type == "lparen" then parseCallParts f env s4
      else if (s4.current.type == "name" || s4.current.type == "string" ||
               s4.current.type == "integer" || s4.current.type == "float" ||
               s4.current.type == "lparen" || s4.current.type == "lbracket" ||
               s4.current.type == "lbrace") &&
              !(s4.current.testAny ["name:else", "name:or", "name:and"])
      then
        if s4.current.test "name:is" then
          .error (.syntaxErr "You cannot chain multiple tests with is")
        else do
          let (a, s') ← parseExpression f env true s4
          pure ((([a], [], Option.none, Option.none) : CallParts), s')
      else pure ((([], [], Option.none, Option.none) : CallParts), s4)
    let result := Expr.testE node name args kwargs dynArgs dynKwargs
    .ok (if negated then .not result else result, s5)
termination_by structural f _ _ _ => f

end

/-- `ExprParser.parse(stream, django_parser)`. -/
def exprParserParse (f : Nat) (env : ParseEnv) (s : TokenStream) :
    Except Err (Expr × TokenStream) :=
  parseExpression f env true s

/-! ## Value wrappers (`values.py`)

The things with a `resolve(context)` method that argument parsing
stores in the bag: `StaticValue`, `NullValue`, `StringValue`,
`IntegerValue`, `ListValue`, `DictValue`, raw expression AST nodes, and
`RepContainer`s (from `arguments.py`, but resolved through the same
interface).  Resolution threads the `settings.DEBUG` switch and
returns the list of `TemplateSyntaxWarning` messages emitted via
`warnings.warn` (warnings emitted inside an attempt whose exception is
caught are dropped by this accounting; no claim observes them). -/

inductive WrapVal where
  | static (value : Value)
  | null
  | stringV (var : WrapVal)
  | integerV (var : WrapVal)
  | listV (items : List WrapVal)
  | dictV (entries : List (String × WrapVal))
  | exprV (e : Expr)
  | repC (args : List WrapVal) (kwargs : List (String × WrapVal))
deriving Repr

def isQuoteCh (c : Char) : Bool := c == '"' || c == '\''

/-- Python `s.strip('"\'')`: drop every leading and trailing quote
character. -/
def pyStripQuotes (s : String) : String :=
  String.mk (((s.toList.dropWhile isQuoteCh).reverse.dropWhile
    isQuoteCh).reverse)

/-- `StaticValue.__init__`: strings are stored stripped of surrounding
quote characters, everything else unchanged. -/
def mkStaticValue : Value → WrapVal
  | .str s => .static (.str (pyStripQuotes s))
  | v => .static v

/-- `isinstance(self.var, StaticValue)`. -/
def WrapVal.isStatic : WrapVal → Bool
  | .static _ => true
  | _ => false

/-- `StringValue.clean`: the empty string becomes `None` unless the
wrapped var is a `StaticValue`. -/
def stringClean (var : WrapVal) (v : Value) : Value :=
  match v with
  | .str "" => if var.isStatic then v else .none
  | _ => v

/-- The rendering of `repr(value)` inside `IntegerValue.errors`; the
only values that can reach it are those whose `int()` coercion raises
`ValueError`, i.e. strings. -/
def shallowRepr : Value → String
  | .str s => "'" ++ s ++ "'"
  | .int n => toString n
  | .bool b => if b then "True" else "False"
  | .none => "None"
  | .float raw => raw
  | _ => "<object>"

def integerCleanMsg (v : Value) : String :=
  shallowRepr v ++ " could not be converted to Integer"

mutual

/-- `resolve(context)` of each wrapper, with the `settings.DEBUG`
switch and the emitted warning messages made explicit:
`StringValue.error` raises a `TemplateSyntaxError` when `debug` is
true and otherwise warns and returns `value_on_error` (the empty
string). -/
def resolveWrap : Nat → Bool → WrapVal → Value →
    Except Err (Value × List String)
  | 0, _, _, _ => .error .fuel
  | f + 1, debug, w, ctx =>
    match w with
    | .static v => .ok (v, [])
    | .null => .ok (.none, [])
    | .stringV var =>
      match resolveWrap f debug var ctx with
      | .ok (v, warns) => .ok (stringClean var v, warns)
      | .error .varDoesNotExist => .ok (.none, [])
      | .error e => .error e
    | .integerV var =>
      match resolveWrap f debug var ctx with
      | .error .varDoesNotExist => .ok (.none, [])
      | .error e => .error e
      | .ok (v, warns) =>
        match v with
        | .str "" => .ok (.none, warns)
        | _ =>
          match pyIntCoerce v with
          | .ok n => .ok (.int n, warns)
          | .error .valueError =>
            if debug then .error (.syntaxErr (integerCleanMsg v))
            else .ok (.str "", warns ++ [integerCleanMsg v])
          | .error .typeError =>
            .error (.other "TypeError: int() argument")
    | .listV items =>
      match resolveWrapList f debug items ctx with
      | .ok (vs, warns) => .ok (.list vs, warns)
      | .error .varDoesNotExist => .ok (.none, [])
      | .error e => .error e
    | .dictV entries =>
      match resolveWrapDict f debug entries ctx with
      | .ok (es, warns) => .ok (.dict es, warns)
      | .error .varDoesNotExist => .ok (.none, [])
      | .error e => .error e
    | .exprV e =>
      match Expr.resolve f e ctx with
      | .ok v => .ok (v, [])
      | .error err => .error err
    | .repC args kwargs => do
      let (av, w1) ← resolveWrap f debug (.listV args) ctx
      let (kv, w2) ← resolveWrap f debug (.dictV kwargs) ctx
      .ok (.repc av kv, w1 ++ w2)
termination_by structural f _ _ _ => f

/-- The element loop of `ListValue.resolve`: the enclosing `try`
covers the whole comprehension, so the first soft-fail aborts the list
(handled by the caller). -/
def resolveWrapList : Nat → Bool → List WrapVal → Value →
    Except Err (List Value × List String)
  | 0, _, _, _ => .error .fuel
  | _ + 1, _, [], _ => .ok ([], [])
  | f + 1, debug, item :: rest, ctx => do
    let (v, w1) ← resolveWrap f debug item ctx
    let (vs, w2) ← resolveWrapList f debug rest ctx
    .ok (v :: vs, w1 ++ w2)
termination_by structural f _ _ _ => f

/-- The entry loop of `DictValue.resolve` (keys are the strings the
bag stores). -/
def resolveWrapDict : Nat → Bool → List (String × WrapVal) → Value →
    Except Err (List (Value × Value) × List String)
  | 0, _, _, _ => .error .fuel
  | _ + 1, _, [], _ => .ok ([], [])
  | f + 1, debug, (k, item) :: rest, ctx => do
    let (v, w1) ← resolveWrap f debug item ctx
    let (es, w2) ← resolveWrapDict f debug rest ctx
    .ok ((.str k, v) :: es, w1 ++ w2)
termination_by structural f _ _ _ => f

end

/-! ## Argument descriptors (`arguments.py`)

The argument bag (`utils.Container`) and the descriptor family, with
`parse` translated case by case.  `NodeList`/`Literal`/`BlockTag`/
`EndTag` delegate to the external django document parser and are
outside this embedding; `MultiValue` variants are embedded through
their `set_value` operations (which is where the naming policy lives).
The
speculative combinators (`OneOf`, `Optional`, `Repetition`) catch
exactly `BaseError` and re-raise everything else. -/

/-- `utils.Container`: positional unresolved values, the name mapping,
and the captured node-lists (opaque here).  `RepContainer` has the same
shape (its `ListValue`/`DictValue` fields hold the same wrappers). -/
structure Container where
  tag_args : List WrapVal
  tag_kwargs : List (String × WrapVal)
  tag_nodelists : List Unit
deriving Repr

def Container.empty : Container := ⟨[], [], []⟩

/-- Python dict membership / lookup on the bag's name mapping. -/
def kwLookup (kwargs : List (String × WrapVal)) (name : String) :
    Option WrapVal :=
  (kwargs.find? (fun p => p.1 == name)).map Prod.snd

/-- Python dict assignment on the bag's name mapping. -/
def kwSet (kwargs : List (String × WrapVal)) (name : String)
    (value : WrapVal) : List (String × WrapVal) :=
  match kwargs with
  | [] => [(name, value)]
  | (k, v) :: rest =>
    if k == name then (k, value) :: rest else (k, v) :: kwSet rest name value

/-- `Argument.value_class` selection (`StringValue` for `Argument`,
`IntegerValue` for `IntegerArgument`). -/
inductive VClass where
  | stringValue
  | integerValue
deriving DecidableEq, Repr

def wrapVClass : VClass → WrapVal → WrapVal
  | .stringValue, w => .stringV w
  | .integerValue, w => .integerV w

/-- The descriptor variants this development embeds.  `default` fields
are `Option Value` with `none` for Python `None` in `Argument` and for
the `NULL` marker in `Flag` (whose constructor makes the flag required
exactly when the default is `NULL`). -/
inductive Arg where
  | constant (value : String) (required : Bool)
  | argument (name : Option String) (defaultVal : Option Value)
      (required resolve : Bool) (exclude : List String) (vclass : VClass)
  | keyword (name : Option String) (defaultVal : Option Value)
      (required resolve : Bool) (exclude : List String) (vclass : VClass)
  | flag (name : Option String) (defaultVal : Option Value)
      (trueValues falseValues : List String) (caseSensitive : Bool)
      (exclude : List String)
  | multiArgument (children : List Arg)
  | oneOf (children : List Arg)
  | optional (children : List Arg)
  | repetition (name : Option String) (children : List Arg)
      (minReps : Nat) (maxReps : Option Nat)
deriving Repr

/-- Membership of a token value in an `exclude` list of strings. -/
def tokValIn (v : TokVal) (l : List String) : Bool :=
  match v with
  | .str s => l.contains s
  | _ => false

/-- `Flag`'s `self.mod`. -/
def flagMod (caseSensitive : Bool) (s : String) : String :=
  if caseSensitive then s else s.toLower

/-- `Argument.set_value`: named results are inserted into the mapping
with a duplicate check; unnamed results are appended positionally.
The `isinstance(value, (list, tuple))` arm references an undefined
local `args`, so a bare list value raises `NameError`. -/
def argumentSetValue (name : Option String) (value : WrapVal)
    (c : Container) : Except Err Container :=
  match name with
  | some n =>
    if (kwLookup c.tag_kwargs n).isSome then
      .error (.base (.keywordInUse n))
    else .ok { c with tag_kwargs := kwSet c.tag_kwargs n value }
  | Option.none =>
    match value with
    | .listV _ => .error (.other "NameError: global name 'args' is not defined")
    | _ => .ok { c with tag_args := c.tag_args ++ [value] }

/-- `MultiValueArgument.set_value`: a named result goes into a
`ListValue` under the descriptor's own name — created on first use,
appended to while the existing binding is a `ListValue`, and a
`KeywordInUse` error only when the existing binding is *not* one. -/
def multiValueSetValue (selfName : Option String) (value : WrapVal)
    (c : Container) : Except Err Container :=
  match selfName with
  | some n =>
    match kwLookup c.tag_kwargs n with
    | Option.none =>
      .ok { c with tag_kwargs := kwSet c.tag_kwargs n (.listV [value]) }
    | some (.listV xs) =>
      .ok { c with tag_kwargs := kwSet c.tag_kwargs n (.listV (xs ++ [value])) }
    | some _ => .error (.base (.keywordInUse n))
  | Option.none => .ok { c with tag_args := c.tag_args ++ [value] }

/-- `MultiValueKeywordArgument.set_value`: with an own name, results
accumulate in a `DictValue` under it (duplicate inner names are
errors); without one, the result is inserted directly with the
duplicate check. -/
def multiValueKeywordSetValue (selfName : Option String) (name : String)
    (value : WrapVal) (c : Container) : Except Err Container :=
  match selfName with
  | some n =>
    match kwLookup c.tag_kwargs n with
    | Option.none =>
      .ok { c with tag_kwargs := kwSet c.tag_kwargs n (.dictV [(name, value)]) }
    | some (.dictV entries) =>
      if (entries.find? (fun p => p.1 == name)).isSome then
        .error (.base (.keywordInUse name))
      else
        let kw := kwSet c.tag_kwargs n (.dictV (entries ++ [(name, value)]))
        .ok { c with tag_kwargs := kw }
    | some _ => .error (.base (.keywordInUse n))
  | Option.none =>
    if (kwLookup c.tag_kwargs name).isSome then
      .error (.base (.keywordInUse name))
    else .ok { c with tag_kwargs := kwSet c.tag_kwargs name value }

/-- `Constant.clean_token`. -/
def constantCleanToken (value : String) (s : TokenStream) :
    Except Err Unit :=
  if s.eos then .error (.base (.tooFewArguments "Constant"))
  else if TokVal.str value == s.current.value then .ok ()
  else .error (.base (.breakpointExpected [value]
    (strOfTokVal s.current.value)))

/-- `Argument.clean_token`: check EOF and exclusion, then either run
the expression parser (re-raising `TemplateSyntaxError`s and wrapping
any other exception) or take the raw token as a `StaticValue`. -/
def argumentCleanToken (f : Nat) (env : ParseEnv) (argtype : String)
    (name : Option String) (resolve : Bool) (exclude : List String)
    (s : TokenStream) : Except Err (WrapVal × TokenStream) :=
  let current := s.current
  if s.eos then .error (.base (.argumentRequired argtype name))
  else if tokValIn current.value exclude then
    .error (.base (.invalidArgument (strOfTokVal current.value)))
  else if resolve then
    match exprParserParse f env s with
    | .ok (e, s') => .ok (.exprV e, s')
    | .error (.base e) => .error (.base e)
    | .error (.syntaxErr m) => .error (.syntaxErr m)
    | .error .fuel => .error .fuel
    | .error _ =>
      .error (.syntaxErr ("Argument unable to process token '" ++
        strOfTokVal current.value ++ "'."))
  else .ok (mkStaticValue (tokValToValue current.value), s.next.2)

/-- `KeywordArgument.clean_token` + `validate_name`: `name=expr`
syntax, the parsed name checked against the exclusion list and the
declared name. -/
def keywordCleanToken (f : Nat) (env : ParseEnv) (argtype : String)
    (selfName : Option String) (exclude : List String) (s : TokenStream) :
    Except Err (String × Expr × TokenStream) := do
  if s.eos then throw (.base (.argumentRequired argtype selfName))
  let (nameTok, s1) ← s.expect "name"
  let name := strOfTokVal nameTok.value
  let (_, s2) ← s1.expect "assign"
  let (value, s3) ← exprParserParse f env s2
  if exclude.contains name then
    -- InvalidArgument stores the parsed value node's repr
    throw (.base (.invalidArgument "<parsed expression>"))
  match selfName with
  | some n =>
    if name != n then throw (.base (.argumentRequired argtype selfName))
    else pure (name, value, s3)
  | Option.none => pure (name, value, s3)

/-- `Flag.clean_token`: map the token through the case mod and the
true/false vocabularies. -/
def flagCleanToken (name : Option String) (trueValues falseValues :
    List String) (caseSensitive : Bool) (exclude : List String)
    (s : TokenStream) : Except Err WrapVal :=
  if s.eos then .error (.base (.tooFewArguments "Flag"))
  else
    let token := s.current.value
    let ltoken := flagMod caseSensitive (strOfTokVal token)
    let trueMod := trueValues.map (flagMod caseSensitive)
    let falseMod := falseValues.map (flagMod caseSensitive)
    if tokValIn token exclude || exclude.contains ltoken then
      .error (.base (.invalidArgument (strOfTokVal token)))
    else if !trueMod.isEmpty && trueMod.contains ltoken then
      .ok (.static (.bool true))
    else if !falseMod.isEmpty && falseMod.contains ltoken then
      .ok (.static (.bool false))
    else
      .error (.base (.invalidFlag name (strOfTokVal token)
        (trueMod ++ falseMod)))

/-- Which descriptors expose a `get_default` method (`hasattr` in
`Optional.parse` / `Repetition.parse`): the `Argument` family does,
`Constant` and the composites do not. -/
def hasGetDefault : Arg → Bool
  | .argument .. => true
  | .keyword .. => true
  | .flag .. => true
  | _ => false

def argName : Arg → Option String
  | .constant _ _ => Option.none
  | .argument n .. => n
  | .keyword n .. => n
  | .flag n .. => n
  | .multiArgument _ => Option.none
  | .oneOf _ => Option.none
  | .optional _ => Option.none
  | .repetition n .. => n

/-- `get_default`: `StaticValue(self.default)` — for a `Flag` whose
default is the `NULL` marker, the stored value is the class object
itself. -/
def getDefaultW : Arg → WrapVal
  | .argument _ d .. => mkStaticValue (d.getD .none)
  | .keyword _ d .. => mkStaticValue (d.getD .none)
  | .flag _ d .. =>
    match d with
    | some v => mkStaticValue v
    | Option.none => .static .nullCls
  | _ => .static .none

/-- The default-installing loop shared by `Optional.parse` and
`Repetition.parse`: every child with a `get_default` method deposits
its default (positionally or by plain dict assignment — no duplicate
check). -/
def installDefaults (children : List Arg) (c : Container) : Container :=
  children.foldl
    (fun c a =>
      if hasGetDefault a then
        match argName a with
        | Option.none => { c with tag_args := c.tag_args ++ [getDefaultW a] }
        | some n => { c with tag_kwargs := kwSet c.tag_kwargs n (getDefaultW a) }
      else c)
    c

/-- The type of a descriptor's `parse` operation once the external
parser and the fuel are fixed: descriptor, `nextargs`, stream, bag. -/
abbrev ChildParser :=
  Arg → List Arg → TokenStream → Container →
    Except Err (TokenStream × Container)

/-- `MultiArgument._do_parse`, over an abstract child parser: children
strictly in order, the remaining siblings threaded as the lookahead
context (the incoming `nextargs` only for the last child). -/
def multiDoParseAux (p : ChildParser) : List Arg → List Arg →
    TokenStream → Container → Except Err (TokenStream × Container)
  | [], _, s, c => .ok (s, c)
  | a :: rest, nextargs, s, c => do
    let na := if rest.isEmpty then nextargs else rest
    let (s', c') ← p a na s c
    multiDoParseAux p rest nextargs s' c'

/-- The child loop of `OneOf.parse`, over an abstract child parser:
speculatively parse each child against a copy of the stream and a
fresh empty bag, committing the first that succeeds by re-parsing it
against the live stream and bag; `BaseError`s mean "this alternative
doesn't match, try the next", anything else is re-raised; exhaustion
raises `ArgumentRequiredError`. -/
def oneOfGoAux (p : ChildParser) : List Arg → List Arg → TokenStream →
    Container → Except Err (TokenStream × Container)
  | [], _, _, _ => .error (.base (.argumentRequired "OneOf" Option.none))
  | a :: rest, nextargs, s, c =>
    match p a nextargs s Container.empty with
    | .ok _ => p a nextargs s c
    | .error (.base _) => oneOfGoAux p rest nextargs s c
    | .error e => .error e

mutual

/-- `parse(parser, stream, container, nextargs)` of each embedded
descriptor. -/
def argParse : Nat → ParseEnv → Arg → List Arg → TokenStream →
    Container → Except Err (TokenStream × Container)
  | 0, _, _, _, _, _ => .error .fuel
  | f + 1, env, a, nextargs, s, c =>
    match a with
    | .constant value _ => do
      let _ ← constantCleanToken value s
      .ok (s.next.2, c)
    | .argument name _ _ resolve exclude vclass => do
      let (w, s') ← argumentCleanToken f env "Argument" name resolve exclude s
      let c' ← argumentSetValue name (wrapVClass vclass w) c
      .ok (s', c')
    | .keyword selfName _ _ _ exclude vclass => do
      let (name, e, s') ←
        keywordCleanToken f env "KeywordArgument" selfName exclude s
      let c' ← argumentSetValue (some name) (wrapVClass vclass (.exprV e)) c
      .ok (s', c')
    | .flag name defaultVal trueValues falseValues caseSensitive exclude => do
      let (value, s') ←
        match flagCleanToken name trueValues falseValues caseSensitive
            exclude s with
        | .ok v => pure (v, s.next.2)
        | .error (.base (.invalidFlag n t al)) =>
          match defaultVal with
          | Option.none => throw (.base (.invalidFlag n t al))
          | some d => pure (mkStaticValue d, s)
        | .error e => throw e
      let c' ← argumentSetValue name value c
      .ok (s', c')
    | .multiArgument children =>
      multiDoParseAux (argParse f env) children nextargs s c
    | .oneOf children => oneOfGoAux (argParse f env) children nextargs s c
    | .optional children =>
      -- speculative attempt against a stream copy and a fresh bag
      match multiDoParseAux (argParse f env) children nextargs s
          Container.empty with
      | .ok _ => multiDoParseAux (argParse f env) children nextargs s c
      | .error (.base _) => .ok (s, installDefaults children c)
      | .error e => .error e
    | .repetition name children minReps maxReps => do
      let (liveS, reps, nodelists) ←
        repLoop f env children nextargs s s [] []
      if reps.length < minReps then
        throw (.base (.argumentRequired "Repetition" name))
      else if (match maxReps with
               | some m => m ≠ 0 && reps.length > m
               | Option.none => false) then
        -- `raise TooManyArguments(str(self), list(tokens))` references
        -- the undefined name `tokens`, so Python raises NameError here
        throw (.other "NameError: global name 'tokens' is not defined")
      else
        let reps' :=
          if reps.isEmpty then
            if children.any hasGetDefault then
              [installDefaults children Container.empty]
            else []
          else reps
        let value : WrapVal :=
          .listV (reps'.map (fun rc => .repC rc.tag_args rc.tag_kwargs))
        let c' :=
          { c with tag_nodelists := c.tag_nodelists ++ nodelists }
        match name with
        | Option.none =>
          .ok (liveS, { c' with tag_args := c'.tag_args ++ [value] })
        | some n =>
          .ok (liveS, { c' with tag_kwargs := kwSet c'.tag_kwargs n value })
termination_by structural f _ _ _ _ _ => f

/-- The speculative loop of `Repetition.parse`: the stream copy
persists across iterations; each successful speculative pass is
committed against the live stream into a fresh `RepContainer`, whose
node-lists extend the parent's. -/
def repLoop : Nat → ParseEnv → List Arg → List Arg → TokenStream →
    TokenStream → List Container → List Unit →
    Except Err (TokenStream × List Container × List Unit)
  | 0, _, _, _, _, _, _, _ => .error .fuel
  | f + 1, env, children, nextargs, specS, liveS, reps, nodelists =>
    match multiDoParseAux (argParse f env) children nextargs specS
        Container.empty with
    | .error (.base _) => .ok (liveS, reps, nodelists)
    | .error e => .error e
    | .ok (specS', _) =>
      match multiDoParseAux (argParse f env) children nextargs liveS
          Container.empty with
      | .error e => .error e
      | .ok (liveS', repContainer) =>
        repLoop f env children nextargs specS' liveS'
          (reps ++ [repContainer]) (nodelists ++ repContainer.tag_nodelists)
termination_by structural f _ _ _ _ _ _ _ => f

end

/-! ## Derived operations used by the statements below -/

/-- Lex a raw expression string, parse it, and resolve the AST against
a context: the composition a `resolve=True` argument performs
(`Argument.clean_token` at parse time, the wrapped node's `resolve` at
render time). -/
def evalExprString (f : Nat) (env : ParseEnv) (src : String)
    (ctx : Value) : Except Err Value := do
  let ts ← tokenize src
  let (e, _) ← exprParserParse f env ts
  Expr.resolve f e ctx

/-- An expression whose resolution either succeeds or raises the
undefined-variable soft-fail (the two outcomes the literal-leniency
loops distinguish). -/
def okOrSoft (f : Nat) (e : Expr) (ctx : Value) : Prop :=
  (∃ v, Expr.resolve f e ctx = .ok v) ∨
    Expr.resolve f e ctx = .error .varDoesNotExist

/-- The element substitution of the literal-leniency policy: the
resolved value, or the empty string after a soft-fail. -/
def softSubst (f : Nat) (e : Expr) (ctx : Value) : Value :=
  match Expr.resolve f e ctx with
  | .ok v => v
  | _ => .str ""

/-- `isinstance(-, ListValue)`. -/
def WrapVal.isListValue : WrapVal → Bool
  | .listV _ => true
  | _ => false

/-- Python dict assignment specialised to a string probe key (the
shape the resolved pairs of a string-keyed dict literal take):
replace the value of the first equal key, else append. -/
def strDictAssign : List (Value × Value) → String → Value →
    List (Value × Value)
  | [], k, v => [(.str k, v)]
  | (.str s, v') :: rest, k, v =>
    if k == s then (.str s, v) :: rest
    else (.str s, v') :: strDictAssign rest k v
  | p :: rest, k, v => p :: strDictAssign rest k v

/-- The entries a string-keyed dict literal resolves to: keys in
source order with later duplicates overwriting, soft-failed values
replaced by the empty string. -/
def dictLiteralSpec (f : Nat) (ctx : Value) :
    List (Expr × Expr) → List (Value × Value) → List (Value × Value)
  | [], acc => acc
  | (k, v) :: rest, acc =>
    let s := match Expr.resolve f k ctx with
      | .ok (.str s) => s
      | _ => ""
    dictLiteralSpec f ctx rest (strDictAssign acc s (softSubst f v ctx))

/-! # Theorems -/

/-- C8: on a token stream with no tokens left, `eos` holds, `current`
returns the EOF sentinel token instead of failing, and advancing
(`__next__`) likewise returns the EOF sentinel while closing the
stream rather than raising. -/
theorem token_stream_eof_sentinel (ts : TokenStream) (h : ts.pushed = []) :
    ts.eos = true ∧ ts.current = eofToken ∧
    ts.next = (eofToken, { ts with closed := true }) := by
  obtain ⟨pushed, closed⟩ := ts
  cases h
  exact ⟨rfl, rfl, rfl⟩

/-- Witness for C8 at the concrete empty stream. -/
theorem token_stream_eof_sentinel_witness :
    TokenStream.eos ⟨[], false⟩ = true ∧
    TokenStream.current ⟨[], false⟩ = eofToken ∧
    TokenStream.next ⟨[], false⟩ = (eofToken, ⟨[], true⟩) :=
  token_stream_eof_sentinel ⟨[], false⟩ rfl

/-- C6 counterexample: tokenizing `"f(a,"` — an opener never closed
before end of input — succeeds with the four tokens, because
`tokeniter` performs no balancing-stack check when the input runs out;
this refutes the claim that it raises a lexer syntax error. -/
theorem lexer_unclosed_opener_tokenizes :
    tokenize "f(a," = .ok ⟨[⟨"name", .str "f"⟩, ⟨"lparen", .str "("⟩,
      ⟨"name", .str "a"⟩, ⟨"comma", .str ","⟩], false⟩ := rfl

/-- C6 (amended): the balanced input tokenizes without error and a
stray `)` with nothing open raises a lexer syntax error, but an opener
left unclosed at end of input is not detected — `"f(a,"` tokenizes
successfully. -/
theorem lexer_balance_checks :
    (tokenize "f(a, [b, \x7bc: d\x7d])").isOk = true ∧
    tokenize ")" = .error (.syntaxErr "unexpected )") ∧
    (tokenize "f(a,").isOk = true :=
  ⟨rfl, rfl, rfl⟩

/-- C2 counterexample: parsing and resolving `"2 ** 3 ** 2"` yields
64, not 512 — `parse_pow` folds repeated `**` to the left, so the
expression evaluates as `(2 ** 3) ** 2`. -/
theorem pow_chain_resolves_to_64_not_512 :
    evalExprString 30 ⟨[]⟩ "2 ** 3 ** 2" (.dict []) = .ok (.int 64) ∧
    (Except.ok (Value.int 64) : Except Err Value) ≠ .ok (.int 512) :=
  ⟨rfl, by simp⟩

/-- C2 (amended): for every context, `"2 ** 3 ** 2"` parses to the
left-folded `Pow(Pow(2, 3), 2)` and resolves to 64. -/
theorem pow_chain_left_folded (ctx : Value) :
    evalExprString 30 ⟨[]⟩ "2 ** 3 ** 2" ctx = .ok (.int 64) := rfl

/-- C4: `Repetition` bound enforcement at concrete inputs.  With
`min_reps = 1` and zero matching repetitions the parse raises the
argument-required error, as the claim states; but with
`max_reps = 1` and two matching repetitions the parse raises
`NameError` — the `raise TooManyArguments(str(self), list(tokens))`
line references the undefined name `tokens` — instead of the
too-many-arguments error the claim (and the code's own intent)
specify. -/
theorem repetition_bounds_enforcement_behaviour :
    argParse 30 ⟨[]⟩
      (.repetition Option.none
        [.argument Option.none Option.none true false [] .stringValue]
        0 (some 1))
      [] ⟨[⟨"name", .str "a"⟩, ⟨"name", .str "b"⟩], false⟩ Container.empty
      = .error (.other "NameError: global name 'tokens' is not defined") ∧
    argParse 30 ⟨[]⟩ (.repetition Option.none [.constant "x" true] 1
        Option.none)
      [] ⟨[], false⟩ Container.empty
      = .error (.base (.argumentRequired "Repetition" Option.none)) :=
  ⟨rfl, rfl⟩

/-- C3 counterexample: a second named insertion by a sequence-valued
(`MultiValueArgument`) descriptor into a key already bound to its
`ListValue` succeeds — the value is appended — refuting the claim that
inserting under an already-bound key is *always* an error. -/
theorem multiValue_duplicate_append_no_error :
    multiValueSetValue (some "x") (.stringV (.static (.str "v")))
      ⟨[], [("x", .listV [.stringV (.static (.str "w"))])], []⟩
      = .ok ⟨[], [("x", .listV [.stringV (.static (.str "w")),
          .stringV (.static (.str "v"))])], []⟩ := rfl

/-- C3 (amended): a scalar (`Argument.set_value`) named insertion
under an already-bound key is always the duplicate-name error; a
sequence-valued (`MultiValueArgument.set_value`) insertion raises the
duplicate-name error exactly when the existing binding is not the
descriptor's `ListValue` — when it is one, the value is appended
without error. -/
theorem named_binding_duplicate_policy :
    (∀ (n : String) (v : WrapVal) (c : Container),
      (kwLookup c.tag_kwargs n).isSome →
        argumentSetValue (some n) v c = .error (.base (.keywordInUse n))) ∧
    (∀ (n : String) (v : WrapVal) (c : Container) (xs : List WrapVal),
      kwLookup c.tag_kwargs n = some (.listV xs) →
        multiValueSetValue (some n) v c =
          .ok { c with tag_kwargs := kwSet c.tag_kwargs n (.listV (xs ++ [v])) }) ∧
    (∀ (n : String) (v : WrapVal) (c : Container) (w : WrapVal),
      kwLookup c.tag_kwargs n = some w → w.isListValue = false →
        multiValueSetValue (some n) v c =
          .error (.base (.keywordInUse n))) := by
  refine ⟨fun n v c h => ?_, fun n v c xs h => ?_, fun n v c w h hw => ?_⟩
  · simp [argumentSetValue, h]
  · simp [multiValueSetValue, h]
  · cases w <;> simp_all [multiValueSetValue, WrapVal.isListValue]

/-- Witness for C3's amended policy at concrete bags. -/
theorem named_binding_duplicate_policy_witness :
    argumentSetValue (some "x") (.stringV (.static (.str "v")))
      ⟨[], [("x", .static .none)], []⟩
      = .error (.base (.keywordInUse "x")) ∧
    multiValueSetValue (some "x") (.static (.str "v"))
      ⟨[], [("x", .listV [])], []⟩
      = .ok ⟨[], [("x", .listV [.static (.str "v")])], []⟩ ∧
    multiValueSetValue (some "x") (.static (.str "v"))
      ⟨[], [("x", .static .none)], []⟩
      = .error (.base (.keywordInUse "x")) :=
  ⟨named_binding_duplicate_policy.1 "x" _ _ rfl,
   named_binding_duplicate_policy.2.1 "x" _ _ [] rfl,
   named_binding_duplicate_policy.2.2 "x" _ _ _ rfl rfl⟩

/-- The exhaustion case of the `OneOf` child loop: when every child's
speculative parse fails with a `BaseError`, the loop raises
`ArgumentRequiredError`. -/
theorem oneOfGoAux_all_fail (p : ChildParser) (children nextargs : List Arg)
    (s : TokenStream) (c : Container)
    (h : ∀ b ∈ children, ∃ e, p b nextargs s Container.empty =
      .error (.base e)) :
    oneOfGoAux p children nextargs s c =
      .error (.base (.argumentRequired "OneOf" Option.none)) := by
  induction children with
  | nil => rfl
  | cons a rest ih =>
    obtain ⟨e, he⟩ := h a (List.mem_cons_self a rest)
    have hrest := ih (fun b hb => h b (List.mem_cons_of_mem a hb))
    simp [oneOfGoAux, he, hrest]

/-- C1: for every `OneOf` descriptor, stream and live bag, a head
child whose speculative parse (against a stream copy and a fresh empty
bag) fails with a `BaseError` leaves the live stream and live bag
untouched: the whole parse equals the parse of the `OneOf` without
that child.  Consequently, when only a later child `B` matches, the
result — in particular the bag — is exactly what a descriptor tree
containing only `B` produces; and when every child's speculative parse
fails, the parse raises the argument-required error. -/
theorem oneOf_speculative_isolation (f : Nat) (env : ParseEnv) (A : Arg)
    (rest nextargs : List Arg) (s : TokenStream) (c : Container) (e : BaseErr)
    (hA : argParse f env A nextargs s Container.empty = .error (.base e)) :
    argParse (f + 1) env (.oneOf (A :: rest)) nextargs s c =
      argParse (f + 1) env (.oneOf rest) nextargs s c ∧
    ((∀ b ∈ rest, ∃ e2, argParse f env b nextargs s Container.empty =
        .error (.base e2)) →
      argParse (f + 1) env (.oneOf (A :: rest)) nextargs s c =
        .error (.base (.argumentRequired "OneOf" Option.none))) ∧
    (∀ (B : Arg) (rest2 : List Arg) (r : TokenStream × Container),
      rest = B :: rest2 →
      argParse f env B nextargs s Container.empty = .ok r →
      argParse (f + 1) env (.oneOf (A :: rest)) nextargs s c =
        argParse f env B nextargs s c) := by
  have hskip : argParse (f + 1) env (.oneOf (A :: rest)) nextargs s c =
      oneOfGoAux (argParse f env) rest nextargs s c := by
    show oneOfGoAux (argParse f env) (A :: rest) nextargs s c = _
    simp [oneOfGoAux, hA]
  have hrest : argParse (f + 1) env (.oneOf rest) nextargs s c =
      oneOfGoAux (argParse f env) rest nextargs s c := rfl
  refine ⟨hskip.trans hrest.symm, fun hall => ?_, fun B rest2 r hr hB => ?_⟩
  · rw [hskip]
    exact oneOfGoAux_all_fail (argParse f env) rest nextargs s c hall
  · subst hr
    rw [hskip]
    simp [oneOfGoAux, hB]

/-- Witness for C1: with children `[Constant "x", Constant "y"]` and
input token `y`, the parse equals both the `OneOf [Constant "y"]`
parse and the bare `Constant "y"` parse; with children
`[Constant "x", Constant "z"]` and the same input, the parse fails
with the argument-required error. -/
theorem oneOf_speculative_isolation_witness :
    argParse 21 ⟨[]⟩ (.oneOf [.constant "x" true, .constant "y" true]) []
      ⟨[⟨"name", .str "y"⟩], false⟩ Container.empty =
      argParse 21 ⟨[]⟩ (.oneOf [.constant "y" true]) []
        ⟨[⟨"name", .str "y"⟩], false⟩ Container.empty ∧
    argParse 21 ⟨[]⟩ (.oneOf [.constant "x" true, .constant "y" true]) []
      ⟨[⟨"name", .str "y"⟩], false⟩ Container.empty =
      argParse 20 ⟨[]⟩ (.constant "y" true) []
        ⟨[⟨"name", .str "y"⟩], false⟩ Container.empty ∧
    argParse 21 ⟨[]⟩ (.oneOf [.constant "x" true, .constant "z" true]) []
      ⟨[⟨"name", .str "y"⟩], false⟩ Container.empty =
      .error (.base (.argumentRequired "OneOf" Option.none)) := by
  have h1 := oneOf_speculative_isolation 20 ⟨[]⟩ (.constant "x" true)
    [.constant "y" true] [] ⟨[⟨"name", .str "y"⟩], false⟩ Container.empty
    (.breakpointExpected ["x"] "y") rfl
  have h2 := oneOf_speculative_isolation 20 ⟨[]⟩ (.constant "x" true)
    [.constant "z" true] [] ⟨[⟨"name", .str "y"⟩], false⟩ Container.empty
    (.breakpointExpected ["x"] "y") rfl
  refine ⟨h1.1, h1.2.2 (.constant "y" true) []
    (⟨[], false⟩, Container.empty) rfl rfl, h2.2.1 ?_⟩
  intro b hb
  simp only [List.mem_singleton] at hb
  subst hb
  exact ⟨.breakpointExpected ["z"] "y", rfl⟩

/-- When an expression's resolution succeeds or soft-fails, the
element loop's per-item handling yields the substituted value. -/
theorem softItem_okOrSoft (f : Nat) (ctx : Value) (e : Expr)
    (h : okOrSoft f e ctx) :
    softItem (fun e' => Expr.resolve f e' ctx) e =
      .ok (softSubst f e ctx) := by
  rcases h with ⟨v, hv⟩ | hsoft
  · simp [softItem, softSubst, hv]
  · simp [softItem, softSubst, hsoft]

/-- The `Tuple`/`List` element loop maps each element to its
soft-substituted value when no element hard-fails. -/
theorem resolveItemsAux_subst (f : Nat) (ctx : Value) (items : List Expr)
    (h : ∀ e ∈ items, okOrSoft f e ctx) :
    resolveItemsAux (fun e => Expr.resolve f e ctx) items =
      .ok (items.map (fun e => softSubst f e ctx)) := by
  induction items with
  | nil => rfl
  | cons a rest ih =>
    have ha := softItem_okOrSoft f ctx a (h a (List.mem_cons_self a rest))
    have hrest := ih (fun e he => h e (List.mem_cons_of_mem a he))
    simp [resolveItemsAux, ha, hrest]

/-- String equality under `pyEq` at any positive fuel. -/
theorem pyEq_str (g : Nat) (hg : 0 < g) (a b : String) :
    pyEq g (.str a) (.str b) = .ok (a == b) := by
  cases g with
  | zero => exact absurd hg (lt_irrefl 0)
  | succ g => rfl

/-- `strDictAssign` keeps every key a string. -/
theorem strDictAssign_keys (acc : List (Value × Value)) (k : String)
    (v : Value) (h : ∀ q ∈ acc, ∃ s, q.1 = Value.str s) :
    ∀ q ∈ strDictAssign acc k v, ∃ s, q.1 = Value.str s := by
  induction acc with
  | nil =>
    intro q hq
    simp [strDictAssign] at hq
    subst hq
    exact ⟨k, rfl⟩
  | cons p rest ih =>
    obtain ⟨s, hs⟩ := h p (List.mem_cons_self p rest)
    obtain ⟨p1, p2⟩ := p
    simp only at hs
    subst hs
    intro q hq
    by_cases hks : (k == s)
    · simp [strDictAssign, hks] at hq
      rcases hq with hq | hq
      · subst hq; exact ⟨s, rfl⟩
      · exact h q (List.mem_cons_of_mem _ hq)
    · simp [strDictAssign, hks] at hq
      rcases hq with hq | hq
      · subst hq; exact ⟨s, rfl⟩
      · exact ih (fun q' hq' => h q' (List.mem_cons_of_mem _ hq')) q hq

/-- `strDictAssign` grows the entry list by at most one. -/
theorem strDictAssign_length_le (acc : List (Value × Value)) (k : String)
    (v : Value) : (strDictAssign acc k v).length ≤ acc.length + 1 := by
  induction acc with
  | nil => simp [strDictAssign]
  | cons p rest ih =>
    obtain ⟨p1, p2⟩ := p
    -- the non-string constructors all take the passthrough branch
    cases p1 with
    | str s =>
      by_cases hks : (k == s)
      · simp [strDictAssign, hks]
      · simp only [strDictAssign, hks, Bool.false_eq_true, if_false,
          List.length_cons]
        omega
    | _ =>
      simp only [strDictAssign, List.length_cons]
      omega

/-- On string-keyed entries with enough fuel, Python dict assignment
computes `strDictAssign`. -/
theorem dictSet_str (g : Nat) (acc : List (Value × Value)) (k : String)
    (v : Value) (hkeys : ∀ q ∈ acc, ∃ s, q.1 = Value.str s)
    (hg : acc.length < g) :
    dictSet g acc (.str k) v = .ok (strDictAssign acc k v) := by
  induction acc generalizing g with
  | nil =>
    cases g with
    | zero => exact absurd hg (by simp)
    | succ g => rfl
  | cons p rest ih =>
    obtain ⟨s, hs⟩ := hkeys p (List.mem_cons_self p rest)
    obtain ⟨p1, p2⟩ := p
    simp only at hs
    subst hs
    cases g with
    | zero => exact absurd hg (by simp)
    | succ g =>
      have hg' : 0 < g := by
        simp only [List.length_cons] at hg
        omega
      have hrec := ih g (fun q hq => hkeys q (List.mem_cons_of_mem _ hq))
        (by simp only [List.length_cons] at hg; omega)
      cases hks : (k == s) with
      | true => simp [dictSet, pyEq_str g hg', hks, strDictAssign]
      | false => simp [dictSet, pyEq_str g hg', hks, strDictAssign, hrec]

/-- The `Dict` pair loop computes `dictLiteralSpec` when every key
resolves to a string and every value resolves or soft-fails. -/
theorem resolvePairsAux_strKeys (f : Nat) (ctx : Value)
    (pairs : List (Expr × Expr)) (acc : List (Value × Value))
    (hkeys : ∀ p ∈ pairs, ∃ s, Expr.resolve f p.1 ctx = .ok (.str s))
    (hvals : ∀ p ∈ pairs, okOrSoft f p.2 ctx)
    (hacc : ∀ q ∈ acc, ∃ s, q.1 = Value.str s)
    (hfuel : acc.length + pairs.length < f) :
    resolvePairsAux f (fun e => Expr.resolve f e ctx) pairs acc =
      .ok (dictLiteralSpec f ctx pairs acc) := by
  induction pairs generalizing acc with
  | nil => rfl
  | cons p rest ih =>
    obtain ⟨k, v⟩ := p
    obtain ⟨s, hk⟩ := hkeys (k, v) (List.mem_cons_self _ _)
    have hv := softItem_okOrSoft f ctx v (hvals (k, v) (List.mem_cons_self _ _))
    have hset := dictSet_str f acc s (softSubst f v ctx) hacc
      (by simp only [List.length_cons] at hfuel; omega)
    have hacc' := strDictAssign_keys acc s (softSubst f v ctx) hacc
    have hlen := strDictAssign_length_le acc s (softSubst f v ctx)
    have hrec := ih (strDictAssign acc s (softSubst f v ctx))
      (fun p hp => hkeys p (List.mem_cons_of_mem _ hp))
      (fun p hp => hvals p (List.mem_cons_of_mem _ hp)) hacc'
      (by simp only [List.length_cons] at hfuel; omega)
    simp [resolvePairsAux, pairKeyRes, hk, hv, hset, hrec,
      dictLiteralSpec]

/-- C5: for every `List`, `Tuple` and (string-keyed) `Dict` literal
node and every context, `resolve` evaluates the elements
independently: an element whose resolution raises the
undefined-variable soft-fail contributes the empty string instead of
propagating the soft-fail, while all other elements contribute their
resolved values. -/
theorem literal_resolution_soft_fail_leniency (f : Nat)
    (items : List Expr) (pairs : List (Expr × Expr)) (ctx : Value)
    (hitems : ∀ e ∈ items, okOrSoft f e ctx)
    (hkeys : ∀ p ∈ pairs, ∃ s, Expr.resolve f p.1 ctx = .ok (.str s))
    (hvals : ∀ p ∈ pairs, okOrSoft f p.2 ctx)
    (hfuel : pairs.length < f) :
    Expr.resolve (f + 1) (.listE items) ctx =
      .ok (.list (items.map (fun e => softSubst f e ctx))) ∧
    Expr.resolve (f + 1) (.tup items) ctx =
      .ok (.tup (items.map (fun e => softSubst f e ctx))) ∧
    Expr.resolve (f + 1) (.dict pairs) ctx =
      .ok (.dict (dictLiteralSpec f ctx pairs [])) := by
  have hi := resolveItemsAux_subst f ctx items hitems
  have hp := resolvePairsAux_strKeys f ctx pairs [] hkeys hvals
    (by intro q hq; simp at hq) (by simpa using hfuel)
  exact ⟨by simp [Expr.resolve, hi], by simp [Expr.resolve, hi],
    by simp [Expr.resolve, hp]⟩

/-- Witness for C5: an undefined name among the elements of a list, a
tuple and a dict value resolves to the empty string; defined elements
keep their values. -/
theorem literal_resolution_soft_fail_leniency_witness :
    Expr.resolve 11 (.listE [.name "missing", .const (.int 1)]) (.dict []) =
      .ok (.list ([Expr.name "missing", Expr.const (.int 1)].map
        (fun e => softSubst 10 e (.dict [])))) ∧
    Expr.resolve 11 (.tup [.name "missing", .const (.int 1)]) (.dict []) =
      .ok (.tup ([Expr.name "missing", Expr.const (.int 1)].map
        (fun e => softSubst 10 e (.dict [])))) ∧
    Expr.resolve 11 (.dict [(.const (.str "k"), .name "missing")]) (.dict []) =
      .ok (.dict (dictLiteralSpec 10 (.dict [])
        [(.const (.str "k"), .name "missing")] [])) := by
  have h := literal_resolution_soft_fail_leniency 10
    [.name "missing", .const (.int 1)]
    [(.const (.str "k"), .name "missing")] (.dict [])
    (by
      intro e he
      simp only [List.mem_cons, List.not_mem_nil, or_false] at he
      rcases he with rfl | rfl
      · exact Or.inr rfl
      · exact Or.inl ⟨.int 1, rfl⟩)
    (by
      intro p hp
      simp only [List.mem_singleton] at hp
      subst hp
      exact ⟨"k", rfl⟩)
    (by
      intro p hp
      simp only [List.mem_singleton] at hp
      subst hp
      exact Or.inr rfl)
    (by simp)
  exact h

/-- C7 counterexample: an `IntegerValue` over a variable that resolves
to `None` has a failing coercion (`int(None)` raises `TypeError`), yet
in the lenient/production mode `resolve` propagates that `TypeError`
instead of warning and returning the sentinel — and the strict/debug
mode raises the same `TypeError`, not a syntax error — refuting the
claim that every coercion failure behaves by the mode-dependent
policy: `IntegerValue.clean` catches only `ValueError`. -/
theorem typed_coercion_typeerror_bypass :
    resolveWrap 2 false (.integerV (.static .none)) (.dict []) =
      .error (.other "TypeError: int() argument") ∧
    resolveWrap 2 true (.integerV (.static .none)) (.dict []) =
      .error (.other "TypeError: int() argument") ∧
    (Except.error (Err.other "TypeError: int() argument") :
      Except Err (Value × List String)) ≠
      .ok (.str "", [integerCleanMsg .none]) :=
  ⟨rfl, rfl, by simp⟩

/-- C7 (amended): an `IntegerValue` whose resolved value fails `int()`
coercion with the `ValueError` the source catches (a non-empty
non-numeric string) behaves by deployment mode only: with
`settings.DEBUG` on, `resolve` raises a `TemplateSyntaxError` carrying
the conversion message; with it off, it emits a
`TemplateSyntaxWarning` with the same message and returns the
wrapper's documented `value_on_error` sentinel, the empty string.  A
coercion failure that raises `TypeError` instead (e.g. a resolved
value of `None`) is not caught by `clean` and propagates identically
in both modes, bypassing the dual-mode policy. -/
theorem integer_coercion_failure_modes (f : Nat) (var : WrapVal)
    (ctx v : Value) (w1 w2 : List String)
    (h1 : resolveWrap f true var ctx = .ok (v, w1))
    (h2 : resolveWrap f false var ctx = .ok (v, w2)) :
    (v ≠ .str "" → pyIntCoerce v = .error .valueError →
      resolveWrap (f + 1) true (.integerV var) ctx =
        .error (.syntaxErr (integerCleanMsg v)) ∧
      resolveWrap (f + 1) false (.integerV var) ctx =
        .ok (.str "", w2 ++ [integerCleanMsg v])) ∧
    (pyIntCoerce v = .error .typeError →
      resolveWrap (f + 1) true (.integerV var) ctx =
        .error (.other "TypeError: int() argument") ∧
      resolveWrap (f + 1) false (.integerV var) ctx =
        .error (.other "TypeError: int() argument")) := by
  constructor
  · intro hne hfail
    have key : ∀ (dbg : Bool) (w : List String),
        resolveWrap f dbg var ctx = .ok (v, w) →
        resolveWrap (f + 1) dbg (.integerV var) ctx =
          (if dbg then .error (.syntaxErr (integerCleanMsg v))
           else .ok (.str "", w ++ [integerCleanMsg v])) := by
      intro dbg w h
      -- the `.str ""` arm of `clean` is ruled out by `hne`
      simp only [resolveWrap, h]
      split
      · rename_i n heq
        rw [hfail] at heq
        cases heq
      · rfl
      · rename_i heq
        rw [hfail] at heq
        cases heq
    refine ⟨?_, ?_⟩
    · simpa using key true w1 h1
    · simpa using key false w2 h2
  · intro hfail
    have hne : v ≠ .str "" := by
      intro hv
      rw [hv] at hfail
      have h2 : (Except.error CoerceErr.valueError : Except CoerceErr Int) =
          .error .typeError := hfail
      cases h2
    have key : ∀ (dbg : Bool) (w : List String),
        resolveWrap f dbg var ctx = .ok (v, w) →
        resolveWrap (f + 1) dbg (.integerV var) ctx =
          .error (.other "TypeError: int() argument") := by
      intro dbg w h
      -- the `.str ""` arm of `clean` is ruled out by `hne`
      simp only [resolveWrap, h]
      split
      · rename_i n heq
        rw [hfail] at heq
        cases heq
      · rename_i heq
        rw [hfail] at heq
        cases heq
      · rfl
    exact ⟨key true w1 h1, key false w2 h2⟩

/-- Witness for C7's amended policy: the static string `"abc"` takes
the mode-dependent branch, the static `None` takes the `TypeError`
bypass in both modes. -/
theorem integer_coercion_failure_modes_witness :
    resolveWrap 2 true (.integerV (.static (.str "abc"))) (.dict []) =
      .error (.syntaxErr (integerCleanMsg (.str "abc"))) ∧
    resolveWrap 2 false (.integerV (.static (.str "abc"))) (.dict []) =
      .ok (.str "", [] ++ [integerCleanMsg (.str "abc")]) ∧
    resolveWrap 2 true (.integerV (.static .none)) (.dict []) =
      .error (.other "TypeError: int() argument") ∧
    resolveWrap 2 false (.integerV (.static .none)) (.dict []) =
      .error (.other "TypeError: int() argument") := by
  have ha := integer_coercion_failure_modes 1 (.static (.str "abc"))
    (.dict []) (.str "abc") [] [] rfl rfl
  have hb := integer_coercion_failure_modes 1 (.static .none)
    (.dict []) .none [] [] rfl rfl
  have ha' := ha.1 (by simp) rfl
  have hb' := hb.2 rfl
  exact ⟨ha'.1, ha'.2, hb'.1, hb'.2⟩

/-- C9: a `StringValue` wrapping an expression node (not a
`StaticValue`) maps a resolved empty string to `None` (`clean`
compensates for django's `None`-to-`""` coercion), while a
`StringValue` wrapping a `StaticValue` whose stored value is the empty
string resolves to the empty string unchanged — in every context. -/
theorem stringvalue_empty_resolution (f : Nat) (debug : Bool) (e : Expr)
    (ctx : Value) (h : Expr.resolve f e ctx = .ok (.str "")) :
    resolveWrap (f + 2) debug (.stringV (.exprV e)) ctx = .ok (.none, []) ∧
    (∀ ctx2 : Value,
      resolveWrap (f + 2) debug (.stringV (.static (.str ""))) ctx2 =
        .ok (.str "", [])) := by
  constructor
  · simp [resolveWrap, h, stringClean, WrapVal.isStatic]
  · intro ctx2
    rfl

/-- Witness for C9 with the constant empty string. -/
theorem stringvalue_empty_resolution_witness :
    resolveWrap 3 true (.stringV (.exprV (.const (.str "")))) (.dict []) =
      .ok (.none, []) ∧
    resolveWrap 3 true (.stringV (.static (.str ""))) (.dict []) =
      .ok (.str "", []) := by
  have h := stringvalue_empty_resolution 1 true (.const (.str "")) (.dict [])
    rfl
  exact ⟨h.1, h.2 (.dict [])⟩

/-- A list splits as its quote prefix, the double-ended strip, and its
quote suffix. -/
theorem doubleStrip_decomp {α : Type} (p : α → Bool) (l : List α) :
    l = l.takeWhile p ++ (((l.dropWhile p).reverse.dropWhile p).reverse ++
      ((l.dropWhile p).reverse.takeWhile p).reverse) := by
  have h1 : l.dropWhile p =
      ((l.dropWhile p).reverse.dropWhile p).reverse ++
        ((l.dropWhile p).reverse.takeWhile p).reverse := by
    conv_lhs => rw [← List.reverse_reverse (l.dropWhile p)]
    rw [← List.reverse_append, List.takeWhile_append_dropWhile]
  conv_lhs => rw [← List.takeWhile_append_dropWhile p l, h1]

/-- The head of `dropWhile p` never satisfies `p`. -/
theorem head?_dropWhile_false {α : Type} (p : α → Bool) (l : List α)
    (c : α) (h : (l.dropWhile p).head? = some c) : p c = false := by
  induction l with
  | nil => simp [List.dropWhile] at h
  | cons a rest ih =>
    by_cases hp : p a
    · rw [List.dropWhile_cons_of_pos hp] at h
      exact ih h
    · rw [List.dropWhile_cons_of_neg hp] at h
      simp only [List.head?_cons, Option.some.injEq] at h
      subst h
      simpa using hp

/-- A nonempty suffix shares its last element with the whole list. -/
theorem getLast?_of_suffix {α : Type} (l1 l2 : List α) (h : l1 <:+ l2)
    (c : α) (hc : l1.getLast? = some c) : l2.getLast? = some c := by
  obtain ⟨t, rfl⟩ := h
  rw [List.getLast?_append, hc]
  rfl

/-- C10: `StaticValue` of a string strips every leading and trailing
quote character at construction, and `resolve` returns that stripped
string for every context: the original splits as quote-prefix ++
stripped ++ quote-suffix, the stripped string neither starts nor ends
with a quote character, the result does not vary with the context, and
a non-string value is stored and returned unchanged. -/
theorem staticvalue_quote_stripping (f : Nat) (debug : Bool) (s : String)
    (v : Value) (ctx ctx2 : Value) (hnotstr : ∀ t, v ≠ .str t) :
    resolveWrap (f + 1) debug (mkStaticValue (.str s)) ctx =
      .ok (.str (pyStripQuotes s), []) ∧
    (∃ p q : List Char, s.toList = p ++ ((pyStripQuotes s).toList ++ q) ∧
      (∀ c ∈ p, isQuoteCh c = true) ∧ (∀ c ∈ q, isQuoteCh c = true)) ∧
    (∀ c, (pyStripQuotes s).toList.head? = some c → isQuoteCh c = false) ∧
    (∀ c, (pyStripQuotes s).toList.getLast? = some c →
      isQuoteCh c = false) ∧
    resolveWrap (f + 1) debug (mkStaticValue (.str s)) ctx =
      resolveWrap (f + 1) debug (mkStaticValue (.str s)) ctx2 ∧
    resolveWrap (f + 1) debug (mkStaticValue v) ctx = .ok (v, []) := by
  have hcore : (pyStripQuotes s).toList =
      ((s.toList.dropWhile isQuoteCh).reverse.dropWhile isQuoteCh).reverse :=
    rfl
  refine ⟨rfl, ?_, ?_, ?_, rfl, ?_⟩
  · refine ⟨s.toList.takeWhile isQuoteCh,
      ((s.toList.dropWhile isQuoteCh).reverse.takeWhile isQuoteCh).reverse,
      ?_, ?_, ?_⟩
    · rw [hcore]
      exact doubleStrip_decomp isQuoteCh s.toList
    · intro c hc
      exact List.mem_takeWhile_imp hc
    · intro c hc
      rw [List.mem_reverse] at hc
      exact List.mem_takeWhile_imp hc
  · intro c hc
    rw [hcore, List.head?_reverse] at hc
    have hsuffix : (s.toList.dropWhile isQuoteCh).reverse.dropWhile
        isQuoteCh <:+ (s.toList.dropWhile isQuoteCh).reverse :=
      List.dropWhile_suffix isQuoteCh
    have hlast := getLast?_of_suffix _ _ hsuffix c hc
    rw [List.getLast?_reverse] at hlast
    exact head?_dropWhile_false isQuoteCh s.toList c hlast
  · intro c hc
    rw [hcore, List.getLast?_reverse] at hc
    exact head?_dropWhile_false isQuoteCh
      (s.toList.dropWhile isQuoteCh).reverse c hc
  · cases v with
    | str t => exact absurd rfl (hnotstr t)
    | none => rfl
    | bool b => rfl
    | int n => rfl
    | float r => rfl
    | tup items => rfl
    | list items => rfl
    | dict entries => rfl
    | repc a k => rfl
    | nullCls => rfl

/-- Witness for C10 at `s := "\"'hello'\""` and the integer 7. -/
theorem staticvalue_quote_stripping_witness :
    resolveWrap 1 true (mkStaticValue (.str "\"'hello'\"")) (.dict []) =
      .ok (.str (pyStripQuotes "\"'hello'\""), []) ∧
    (∀ c, (pyStripQuotes "\"'hello'\"").toList.head? = some c →
      isQuoteCh c = false) ∧
    resolveWrap 1 true (mkStaticValue (.int 7)) (.dict []) =
      .ok (.int 7, []) := by
  have h := staticvalue_quote_stripping 0 true "\"'hello'\"" (.int 7)
    (.dict []) (.dict [])
    (by intro t h; cases h)
  exact ⟨h.1, h.2.2.1, h.2.2.2.2.2⟩

end Customtags
